import Mathlib

/-!
Verification development for the FunniGuy per-entity document store and
balance ledger (src/utils/economy_manager.py, src/utils/database_manager.py).

The Python code is shallowly embedded as executable Lean functions:

* Python `int` is modelled by `Int` (Python ints are unbounded).
* Python `float` coefficients (tax rates, prestige multipliers, item effect
  values) are modelled by exact rationals `ℚ`; concrete witnesses use values
  on which binary floating point and exact arithmetic agree.
* `datetime` values are abstracted to a `Tstamp` record carrying exactly the
  projections the code compares: the calendar date (`.date()`), the ISO
  calendar week (`.isocalendar()[1]`) and seconds since the epoch
  (for `.total_seconds()` differences).
* The document store (`DatabaseManager`) is modelled at the level the economy
  manager observes it: a map from user id and record kind to the decoded
  record.  `save_user_data` can raise (validation failure or I/O failure);
  this is modelled by a schedule `saveFail : List Bool` consumed one entry
  per save call, an empty schedule meaning every save succeeds.  A failed
  save leaves the stored record unchanged, as `_write_json_file` guarantees
  (write to temp then atomic replace).
* Exceptions are modelled with `Except`: errors raised outside a
  `try` block surface as `.error`, errors raised inside a `try ... except
  Exception` block are swallowed into the `.ok false` / `None` result the
  handler returns, exactly following the control flow of each method.
-/

namespace FunniGuy

/-- Abstraction of a Python `datetime` value: the calendar date identifier
(`.date()`), the ISO calendar week (`.isocalendar()[1]`) and the number of
seconds since the epoch (used for `.total_seconds()` differences). -/
structure Tstamp where
  dateId : Nat
  week : Nat
  seconds : Nat
deriving DecidableEq

/-- The `TransactionType` enum of economy_manager.py. -/
inductive TransactionType where
  | earn_work | earn_daily | earn_weekly | earn_gambling | earn_achievement
  | earn_level_up | earn_gift | spend_shop | spend_gambling | spend_gift
  | transfer_send | transfer_receive | bank_deposit | bank_withdraw
  | admin_add | admin_remove
deriving DecidableEq

/-- One entry of the bounded transaction history, as built by
`EconomyManager._add_transaction`. -/
structure Transaction where
  timestamp : Tstamp
  ttype : TransactionType
  amount : Int
  description : String
deriving DecidableEq

/-- The fields of the `EconomyData` record (schemas.py) that the embedded
operations read or write.  Timestamps are stored as `Option Tstamp`
(`None` maps to `none`). -/
structure EconomyData where
  pocket_balance : Int
  bank_balance : Int
  bank_capacity : Int
  total_earned : Int
  total_spent : Int
  daily_work_used : Bool
  daily_bonus_claimed : Bool
  weekly_bonus_claimed : Bool
  last_work_time : Option Tstamp
  last_daily_time : Option Tstamp
  last_weekly_time : Option Tstamp
  transaction_history : List Transaction
  total_gambled : Int
  total_won : Int
  gambling_streak : Int
  total_crimes : Int
  successful_crimes : Int
  total_robs : Int
  successful_robs : Int
  times_robbed : Int
  total_work_sessions : Int
  work_streak : Int
  bank_tier : Int
  tax_bracket : Nat
  total_taxes_paid : Int
deriving DecidableEq

/-- The fields of the `PrestigeData` record (schemas.py) used by the embedded
operations. -/
structure PrestigeData where
  prestige_level : Nat
  prestige_points : Int
  total_prestiges : Int
  prestige_multiplier : ℚ
  last_prestige_date : Option Tstamp
  lifetime_earnings_before_prestige : Int
deriving DecidableEq

/-- One active item effect (`ActiveItemEffect` in schemas.py). -/
structure ActiveItemEffect where
  effect_type : String
  value : ℚ
  duration : Option Int
  started_at : Tstamp
deriving DecidableEq

/-- The `ActiveEffects` record of schemas.py. -/
structure ActiveEffects where
  temporary_effects : List ActiveItemEffect
  permanent_effects : List ActiveItemEffect
  last_update : Tstamp
deriving DecidableEq

/-- The per-item fields of `UserInventory.items` that
`calculate_total_multipliers` and `_update_inventory_value` read. -/
structure InventoryItem where
  quantity : Int
  value : Int
  consumable : Bool
deriving DecidableEq

/-- The `UserInventory` record: items as an association list in dict insertion
order, plus the cached total value. -/
structure UserInventory where
  items : List (String × InventoryItem)
  total_value : Int
deriving DecidableEq

/-- The persistent state as seen by `EconomyManager` through
`DatabaseManager`: one decoded record per user id and record kind, plus the
schedule of outcomes for successive `save_user_data` calls (`[]` means every
save succeeds; a `true` entry makes the corresponding save raise, leaving the
stored record untouched). -/
structure LedgerState where
  econ : Nat → Option EconomyData
  prestige : Nat → Option PrestigeData
  effects : Nat → Option ActiveEffects
  inventory : Nat → Option UserInventory
  saveFail : List Bool

/-- Consume the next entry of the save-outcome schedule.  Returns `true` when
the save succeeds. -/
def popSave (s : LedgerState) : LedgerState × Bool :=
  match s.saveFail with
  | [] => (s, true)
  | b :: rest => ({ s with saveFail := rest }, !b)

/-- Embedding of `save_user_data(user_id, "economy", d)`: on success the
stored record is replaced, on failure (raised exception) it is unchanged. -/
def saveEcon (s : LedgerState) (uid : Nat) (d : EconomyData) :
    LedgerState × Bool :=
  let (s', ok) := popSave s
  if ok then
    ({ s' with econ := fun u => if u = uid then some d else s'.econ u }, true)
  else (s', false)

/-- Embedding of `save_user_data(user_id, "prestige", p)`. -/
def savePrestige (s : LedgerState) (uid : Nat) (p : PrestigeData) :
    LedgerState × Bool :=
  let (s', ok) := popSave s
  if ok then
    ({ s' with prestige := fun u => if u = uid then some p else s'.prestige u },
      true)
  else (s', false)

/-- Embedding of `save_user_data(user_id, "active_effects", e)`. -/
def saveEffects (s : LedgerState) (uid : Nat) (e : ActiveEffects) :
    LedgerState × Bool :=
  let (s', ok) := popSave s
  if ok then
    ({ s' with effects := fun u => if u = uid then some e else s'.effects u },
      true)
  else (s', false)

/-- Embedding of `save_user_data(user_id, "inventory", inv)`. -/
def saveInventory (s : LedgerState) (uid : Nat) (inv : UserInventory) :
    LedgerState × Bool :=
  let (s', ok) := popSave s
  if ok then
    ({ s' with
        inventory := fun u => if u = uid then some inv else s'.inventory u },
      true)
  else (s', false)

/-- Constant `work_cooldown_hours` of `EconomyManager`. -/
def workCooldownHours : Int := 4

/-- Constant `max_transaction_history` of `EconomyManager`. -/
def maxTransactionHistory : Nat := 100

/-- The daily-reset step of `_check_and_reset_daily_weekly`: clear the two
daily flags when the stored daily date differs from the current date. -/
def resetDaily (now : Tstamp) (d : EconomyData) : EconomyData :=
  match d.last_daily_time with
  | some t =>
      if t.dateId ≠ now.dateId then
        { d with daily_work_used := false, daily_bonus_claimed := false }
      else d
  | none => d

/-- The weekly-reset step of `_check_and_reset_daily_weekly`: clear the
weekly flag when the ISO calendar week differs. -/
def resetWeekly (now : Tstamp) (d : EconomyData) : EconomyData :=
  match d.last_weekly_time with
  | some t =>
      if now.week ≠ t.week then { d with weekly_bonus_claimed := false }
      else d
  | none => d

/-- The work-cooldown step of `_check_and_reset_daily_weekly`: clear
`daily_work_used` when the cooldown has elapsed. -/
def resetWork (now : Tstamp) (d : EconomyData) : EconomyData :=
  match d.last_work_time with
  | some t =>
      if (now.seconds : Int) - (t.seconds : Int) ≥ workCooldownHours * 3600
      then { d with daily_work_used := false }
      else d
  | none => d

/-- Pure part of `EconomyManager._check_and_reset_daily_weekly`: the three
reset steps in the order the method performs them. -/
def checkAndResetDailyWeekly (now : Tstamp) (d : EconomyData) : EconomyData :=
  resetWork now (resetWeekly now (resetDaily now d))

/-- Embedding of `EconomyManager.get_user_economy`: read the record, run the
daily and weekly reset check on it, save the result back, and return it; any
raised exception (including a failed save) is caught and `None` is
returned. -/
def getUserEconomy (now : Tstamp) (s : LedgerState) (uid : Nat) :
    LedgerState × Option EconomyData :=
  match s.econ uid with
  | none => (s, none)
  | some d =>
    match saveEcon s uid (checkAndResetDailyWeekly now d) with
    | (s', true) => (s', some (checkAndResetDailyWeekly now d))
    | (s', false) => (s', none)

/-- Embedding of `EconomyManager.get_balance`: the pocket and bank balances,
or the pair of zeros when `get_user_economy` produced no record. -/
def getBalance (now : Tstamp) (s : LedgerState) (uid : Nat) :
    LedgerState × (Int × Int) :=
  match getUserEconomy now s uid with
  | (s', none) => (s', (0, 0))
  | (s', some d) => (s', (d.pocket_balance, d.bank_balance))

/-- Embedding of `EconomyManager._add_transaction`: append one entry and trim
the history to the most recent `max_transaction_history` entries. -/
def addTransaction (now : Tstamp) (d : EconomyData) (tt : TransactionType)
    (amount : Int) (desc : String) : EconomyData :=
  let hist := d.transaction_history ++ [⟨now, tt, amount, desc⟩]
  { d with
    transaction_history :=
      if maxTransactionHistory < hist.length then
        hist.drop (hist.length - maxTransactionHistory)
      else hist }

/-- The two balance pools addressed by the `location` argument of
`add_money` and `remove_money`. -/
inductive Location where
  | pocket | bank
deriving DecidableEq

/-- Read the balance named by `location`, as `economy_data.get(f..._balance)`
does. -/
def getLocBalance (d : EconomyData) (loc : Location) : Int :=
  match loc with
  | .pocket => d.pocket_balance
  | .bank => d.bank_balance

/-- Write the balance named by `location`. -/
def setLocBalance (d : EconomyData) (loc : Location) (v : Int) : EconomyData :=
  match loc with
  | .pocket => { d with pocket_balance := v }
  | .bank => { d with bank_balance := v }

/-- The pool other than the addressed one. -/
def otherLoc : Location → Location
  | .pocket => .bank
  | .bank => .pocket

/-- The exception types the ledger raises to its caller.  `InvalidAmountError`
raised before the `try` block propagates; every exception raised inside a
`try ... except Exception` block is swallowed into the boolean result. -/
inductive EconError where
  | invalidAmount
  | insufficientFunds
deriving DecidableEq

/-- Embedding of `EconomyManager.add_money`.  `amount <= 0` raises
`InvalidAmountError` before the `try` block, so it propagates; every other
failure (missing record, failed save) is caught and turned into `False`.
There is no capacity check in `add_money`, for either pool. -/
def addMoney (now : Tstamp) (s : LedgerState) (uid : Nat) (amount : Int)
    (loc : Location) (tt : TransactionType) (desc : String) :
    LedgerState × Except EconError Bool :=
  if amount ≤ 0 then (s, .error .invalidAmount)
  else
    match getUserEconomy now s uid with
    | (s1, none) => (s1, .ok false)
    | (s1, some d) =>
      let d1 := setLocBalance d loc (getLocBalance d loc + amount)
      let d2 := { d1 with total_earned := d1.total_earned + amount }
      let d3 := addTransaction now d2 tt amount desc
      ((saveEcon s1 uid d3).1, .ok (saveEcon s1 uid d3).2)

/-- Embedding of `EconomyManager.remove_money`.  `amount <= 0` raises
`InvalidAmountError` before the `try` block, so it propagates; the
`InsufficientFundsError` raised on a low balance is raised inside the `try`
block and caught by `except Exception`, so the call returns `False`
instead of surfacing the error. -/
def removeMoney (now : Tstamp) (s : LedgerState) (uid : Nat) (amount : Int)
    (loc : Location) (tt : TransactionType) (desc : String) :
    LedgerState × Except EconError Bool :=
  if amount ≤ 0 then (s, .error .invalidAmount)
  else
    match getUserEconomy now s uid with
    | (s1, none) => (s1, .ok false)
    | (s1, some d) =>
      if getLocBalance d loc < amount then (s1, .ok false)
      else
        let d1 := setLocBalance d loc (getLocBalance d loc - amount)
        let d2 := { d1 with total_spent := d1.total_spent + amount }
        let d3 := addTransaction now d2 tt (-amount) desc
        ((saveEcon s1 uid d3).1, .ok (saveEcon s1 uid d3).2)

/-- Embedding of `EconomyManager.transfer_money`.  Both user records are
mutated in memory, then the sender is saved, then the receiver.  When the
save of the receiver raises after the save of the sender succeeded, the
handler just returns `False`: the sender stays debited and no compensating
credit is issued. -/
def transferMoney (now : Tstamp) (s : LedgerState) (sender receiver : Nat)
    (amount : Int) : LedgerState × Except EconError Bool :=
  if amount ≤ 0 then (s, .error .invalidAmount)
  else if sender = receiver then (s, .error .invalidAmount)
  else
    match getUserEconomy now s sender with
    | (s1, none) => (s1, .ok false)
    | (s1, some se) =>
      if se.pocket_balance < amount then (s1, .ok false)
      else
        match getUserEconomy now s1 receiver with
        | (s2, none) => (s2, .ok false)
        | (s2, some re) =>
          let se1 := { se with
            pocket_balance := se.pocket_balance - amount,
            total_spent := se.total_spent + amount }
          let se2 := addTransaction now se1 .transfer_send (-amount)
            "Transfer to user"
          let re1 := { re with
            pocket_balance := re.pocket_balance + amount,
            total_earned := re.total_earned + amount }
          let re2 := addTransaction now re1 .transfer_receive amount
            "Transfer from user"
          if (saveEcon s2 sender se2).2 then
            ((saveEcon (saveEcon s2 sender se2).1 receiver re2).1,
              .ok (saveEcon (saveEcon s2 sender se2).1 receiver re2).2)
          else ((saveEcon s2 sender se2).1, .ok false)

/-- Embedding of `EconomyManager.deposit_to_bank`.  The capacity check reports
overflow by raising `InvalidAmountError` inside the `try` block, which is
caught and turned into `False`. -/
def depositToBank (now : Tstamp) (s : LedgerState) (uid : Nat) (amount : Int) :
    LedgerState × Except EconError Bool :=
  if amount ≤ 0 then (s, .error .invalidAmount)
  else
    match getUserEconomy now s uid with
    | (s1, none) => (s1, .ok false)
    | (s1, some d) =>
      if d.pocket_balance < amount then (s1, .ok false)
      else if d.bank_capacity < d.bank_balance + amount then (s1, .ok false)
      else
        let d1 := { d with
          pocket_balance := d.pocket_balance - amount,
          bank_balance := d.bank_balance + amount }
        let d2 := addTransaction now d1 .bank_deposit amount
          "Deposited to bank"
        ((saveEcon s1 uid d2).1, .ok (saveEcon s1 uid d2).2)

/-- Embedding of `EconomyManager.withdraw_from_bank`. -/
def withdrawFromBank (now : Tstamp) (s : LedgerState) (uid : Nat)
    (amount : Int) : LedgerState × Except EconError Bool :=
  if amount ≤ 0 then (s, .error .invalidAmount)
  else
    match getUserEconomy now s uid with
    | (s1, none) => (s1, .ok false)
    | (s1, some d) =>
      if d.bank_balance < amount then (s1, .ok false)
      else
        let d1 := { d with
          bank_balance := d.bank_balance - amount,
          pocket_balance := d.pocket_balance + amount }
        let d2 := addTransaction now d1 .bank_withdraw amount
          "Withdrew from bank"
        ((saveEcon s1 uid d2).1, .ok (saveEcon s1 uid d2).2)

/-- Python `int()` applied to a rational value: truncation toward zero
(the numerator T-divided by the positive denominator). -/
def pyInt (q : ℚ) : Int :=
  Int.tdiv q.num (q.den : Int)

/-- One row of the `tax_brackets` table of `EconomyManager`; `hi = none`
models the `float(inf)` upper bound of bracket 5. -/
structure TaxBracketInfo where
  bracket : Nat
  rate : ℚ
  lo : Int
  hi : Option Int
deriving DecidableEq

/-- The `tax_brackets` table, in dict insertion order. -/
def taxBrackets : List TaxBracketInfo :=
  [⟨1, 0, 0, some 10000⟩,
   ⟨2, 5/100, 10001, some 50000⟩,
   ⟨3, 1/10, 50001, some 200000⟩,
   ⟨4, 15/100, 200001, some 1000000⟩,
   ⟨5, 2/10, 1000001, none⟩]

/-- The membership test `info.min <= total_balance <= info.max` of
`calculate_tax_bracket`. -/
def bracketMatches (b : TaxBracketInfo) (bal : Int) : Bool :=
  b.lo ≤ bal && (match b.hi with | some h => bal ≤ h | none => true)

/-- Embedding of `EconomyManager.calculate_tax_bracket`: scan the brackets in
order and fall back to the highest bracket when none matches (which happens
exactly for negative balances). -/
def calculateTaxBracket (bal : Int) : TaxBracketInfo :=
  match taxBrackets.find? (fun b => bracketMatches b bal) with
  | some b => b
  | none => ⟨5, 2/10, 1000001, none⟩

/-- Embedding of `EconomyManager.apply_tax`: compute the tax from the bracket
of the total balance, and when it is positive deduct it from the pocket
balance with no check that the pocket can cover it.  Returns the pair of the
tax charged and the after-tax income. -/
def applyTax (now : Tstamp) (s : LedgerState) (uid : Nat) (income : Int) :
    LedgerState × (Int × Int) :=
  match getUserEconomy now s uid with
  | (s1, none) => (s1, (0, income))
  | (s1, some d) =>
    let info := calculateTaxBracket (d.pocket_balance + d.bank_balance)
    let tax := pyInt ((income : ℚ) * info.rate)
    let afterTax := income - tax
    if 0 < tax then
      let d1 := { d with
        pocket_balance := d.pocket_balance - tax,
        total_taxes_paid := d.total_taxes_paid + tax,
        tax_bracket := info.bracket }
      let d2 := addTransaction now d1 .admin_remove (-tax) "Tax payment"
      if (saveEcon s1 uid d2).2 then ((saveEcon s1 uid d2).1, (tax, afterTax))
      else ((saveEcon s1 uid d2).1, (0, income))
    else (s1, (tax, afterTax))

/-- The `prestige_requirements` table of `EconomyManager` (`none` for levels
outside the table). -/
def prestigeRequirements (level : Nat) : Option Int :=
  match level with
  | 1 => some 100000
  | 2 => some 500000
  | 3 => some 2000000
  | 4 => some 10000000
  | 5 => some 50000000
  | _ => none

/-- The `prestige_multipliers` table of `EconomyManager`, with its `1.0`
default for levels outside the table. -/
def prestigeMultipliers (level : Nat) : ℚ :=
  match level with
  | 0 => 1
  | 1 => 11/10
  | 2 => 5/4
  | 3 => 3/2
  | 4 => 2
  | 5 => 3
  | _ => 1

/-- Embedding of `EconomyManager.check_prestige_eligibility`.  Reads the
economy record through `get_user_economy` (which saves the reset check back)
and the prestige record through the plain `get_user_prestige` read. -/
def checkPrestigeEligibility (now : Tstamp) (s : LedgerState) (uid : Nat) :
    LedgerState × (Bool × Nat × Int) :=
  let (s1, eOpt) := getUserEconomy now s uid
  match eOpt, s1.prestige uid with
  | some e, some p =>
    let next := p.prestige_level + 1
    match prestigeRequirements next with
    | none => (s1, (false, next, 0))
    | some req => (s1, (decide (req ≤ e.total_earned), next, req))
  | _, _ => (s1, (false, 1, 100000))

/-- Embedding of `EconomyManager.prestige_user`: after the eligibility check,
bump the prestige record, reset the economy progress fields (the pocket
balance becomes 1000, `total_earned` becomes 1000 and `total_spent` becomes
0), clear the transaction history, append the prestige log entry and save
both records. -/
def prestigeUser (now : Tstamp) (s : LedgerState) (uid : Nat)
    (confirm : Bool) : LedgerState × Bool :=
  if !confirm then (s, false)
  else
    let (s1, r) := checkPrestigeEligibility now s uid
    if !r.1 then (s1, false)
    else
      match getUserEconomy now s1 uid with
      | (s2, none) => (s2, false)
      | (s2, some e) =>
        match s2.prestige uid with
        | none => (s2, false)
        | some p =>
          let next := r.2.1
          let p1 := { p with
            prestige_level := next,
            prestige_points := p.prestige_points + 1,
            total_prestiges := p.total_prestiges + 1,
            prestige_multiplier := prestigeMultipliers next,
            last_prestige_date := some now,
            lifetime_earnings_before_prestige := e.total_earned }
          let e1 := { e with
            pocket_balance := 1000
            bank_balance := 0
            total_earned := 1000
            total_spent := 0
            total_gambled := 0
            total_won := 0
            gambling_streak := 0
            total_crimes := 0
            successful_crimes := 0
            total_robs := 0
            successful_robs := 0
            total_work_sessions := 0
            work_streak := 0
            transaction_history := [] }
          let e2 := addTransaction now e1 .admin_add 0
            "Prestige Level Achieved"
          if !(savePrestige s2 uid p1).2 then
            ((savePrestige s2 uid p1).1, false)
          else
            ((saveEcon (savePrestige s2 uid p1).1 uid e2).1,
              (saveEcon (savePrestige s2 uid p1).1 uid e2).2)

/-- Embedding of `EconomyManager.calculate_prestige_bonus`: scale the base
amount by the stored prestige multiplier (a plain read, no store
mutation). -/
def calculatePrestigeBonus (s : LedgerState) (uid : Nat) (base : Int) : Int :=
  match s.prestige uid with
  | none => base
  | some p => pyInt ((base : ℚ) * p.prestige_multiplier)

/-- Embedding of `EconomyManager._clean_expired_effects`, pure part: keep a
temporary effect when it has no duration or its duration has not yet elapsed,
and stamp `last_update` with the current time. -/
def cleanExpiredEffects (now : Tstamp) (eff : ActiveEffects) : ActiveEffects :=
  { eff with
    temporary_effects := eff.temporary_effects.filter (fun e =>
      match e.duration with
      | none => true
      | some dur =>
        decide ((now.seconds : Int) - (e.started_at.seconds : Int) < dur)),
    last_update := now }

/-- Embedding of `EconomyManager.get_user_active_effects`: when a record is
present it is cleaned and saved back; a raised exception (including a failed
save) is caught and `None` is returned. -/
def getUserActiveEffects (now : Tstamp) (s : LedgerState) (uid : Nat) :
    LedgerState × Option ActiveEffects :=
  match s.effects uid with
  | none => (s, none)
  | some eff =>
    let eff' := cleanExpiredEffects now eff
    ((saveEffects s uid eff').1,
      if (saveEffects s uid eff').2 then some eff' else none)

/-- Embedding of `InventoryManager._update_inventory_value`: recompute the
cached total value from the item values and quantities. -/
def updateInventoryValue (inv : UserInventory) : UserInventory :=
  { inv with
    total_value :=
      inv.items.foldl (fun acc it => acc + it.2.value * it.2.quantity) 0 }

/-- Embedding of `InventoryManager.get_user_inventory`: when a record is
present its total value is recomputed and the record saved back; a raised
exception is caught and `None` is returned. -/
def getUserInventory (s : LedgerState) (uid : Nat) :
    LedgerState × Option UserInventory :=
  match s.inventory uid with
  | none => (s, none)
  | some inv =>
    let inv' := updateInventoryValue inv
    ((saveInventory s uid inv').1,
      if (saveInventory s uid inv').2 then some inv' else none)

/-- The multiplier dictionary built by `calculate_total_multipliers`, with
one field per key. -/
structure Multipliers where
  money_multiplier : ℚ
  exp_multiplier : ℚ
  work_bonus : ℚ
  gambling_luck : ℚ
  crime_success : ℚ
  rob_protection : ℚ
  rob_success : ℚ
deriving DecidableEq

/-- The initial multiplier dictionary of `calculate_total_multipliers`. -/
def defaultMultipliers : Multipliers := ⟨1, 1, 0, 0, 0, 0, 0⟩

/-- One iteration of the effect loops of `calculate_total_multipliers`: keys
present in the dictionary and ending in `_multiplier` compose
multiplicatively as `* (1 + value)`, other present keys add; unknown keys
are ignored. -/
def applyEffectValue (m : Multipliers) (ty : String) (v : ℚ) : Multipliers :=
  if ty = "money_multiplier" then
    { m with money_multiplier := m.money_multiplier * (1 + v) }
  else if ty = "exp_multiplier" then
    { m with exp_multiplier := m.exp_multiplier * (1 + v) }
  else if ty = "work_bonus" then { m with work_bonus := m.work_bonus + v }
  else if ty = "gambling_luck" then
    { m with gambling_luck := m.gambling_luck + v }
  else if ty = "crime_success" then
    { m with crime_success := m.crime_success + v }
  else if ty = "rob_protection" then
    { m with rob_protection := m.rob_protection + v }
  else if ty = "rob_success" then { m with rob_success := m.rob_success + v }
  else m

/-- The inner loop over one catalog item effect dict in
`calculate_total_multipliers` (the `duration` key is skipped explicitly). -/
def applyItemEffects (m : Multipliers) (effects : List (String × ℚ)) :
    Multipliers :=
  effects.foldl
    (fun m p => if p.1 = "duration" then m else applyEffectValue m p.1 p.2) m

/-- Embedding of `EconomyManager.calculate_total_multipliers`.  The static
`DEFAULT_ITEMS` catalog is passed as a map from item id to the effect dict of
that item (an association list in dict insertion order).  The call reads the
prestige record, then the active effects through `get_user_active_effects`
(which rewrites the stored effects record), then the inventory through
`get_user_inventory` (which rewrites the stored inventory record). -/
def calculateTotalMultipliers (catalog : String → Option (List (String × ℚ)))
    (now : Tstamp) (s : LedgerState) (uid : Nat) :
    LedgerState × Multipliers :=
  let m0 := defaultMultipliers
  let m1 :=
    match s.prestige uid with
    | some p =>
      { m0 with
        money_multiplier := m0.money_multiplier * p.prestige_multiplier,
        exp_multiplier := m0.exp_multiplier * p.prestige_multiplier }
    | none => m0
  let s1 := (getUserActiveEffects now s uid).1
  let m2 :=
    match (getUserActiveEffects now s uid).2 with
    | some eff =>
      (eff.temporary_effects ++ eff.permanent_effects).foldl
        (fun m e => applyEffectValue m e.effect_type e.value) m1
    | none => m1
  let m3 :=
    match (getUserInventory s1 uid).2 with
    | some inv =>
      inv.items.foldl (fun m it =>
        if !it.2.consumable then
          match catalog it.1 with
          | some effs => applyItemEffects m effs
          | none => m
        else m) m2
    | none => m2
  ((getUserInventory s1 uid).1, m3)

/-- Constant `min_bet` of `EconomyManager`. -/
def minBet : Int := 10

/-- Constant `max_bet` of `EconomyManager`. -/
def maxBet : Int := 10000

/-- Embedding of `EconomyManager.gamble_money`.  A bet outside the
`[min_bet, max_bet]` range raises `InvalidAmountError` before the `try`
block; everything raised inside the `try` block (missing record,
insufficient funds, a failed save) is caught and returned as the non-error
triple `(False, 0, False)`.  The win/lose draw (`random.random() <
gambling_win_chance`) is the `win` parameter; a win pays
`int(bet * 1.8)`. -/
def gambleMoney (now : Tstamp) (s : LedgerState) (uid : Nat) (bet : Int)
    (win : Bool) : LedgerState × Except EconError (Bool × Int × Bool) :=
  if bet < minBet ∨ maxBet < bet then (s, .error .invalidAmount)
  else
    match getUserEconomy now s uid with
    | (s1, none) => (s1, .ok (false, 0, false))
    | (s1, some d) =>
      if d.pocket_balance < bet then (s1, .ok (false, 0, false))
      else if win then
        let winnings := pyInt ((bet : ℚ) * (9/5))
        let d1 := { d with
          pocket_balance := d.pocket_balance + (winnings - bet),
          total_earned := d.total_earned + winnings,
          total_won := d.total_won + winnings,
          gambling_streak := d.gambling_streak + 1 }
        let d2 := addTransaction now d1 .earn_gambling (winnings - bet)
          "Gambling win"
        ((saveEcon s1 uid d2).1,
          .ok (if (saveEcon s1 uid d2).2 then (true, winnings, true)
            else (false, 0, false)))
      else
        let d1 := { d with
          pocket_balance := d.pocket_balance - bet,
          total_spent := d.total_spent + bet,
          total_gambled := d.total_gambled + bet,
          gambling_streak := 0 }
        let d2 := addTransaction now d1 .spend_gambling (-bet)
          "Gambling loss"
        ((saveEcon s1 uid d2).1,
          .ok (if (saveEcon s1 uid d2).2 then (true, bet, false)
            else (false, 0, false)))

/-- The `crime_configs` table of `commit_crime`: the (min, max) reward
range of each crime type; an unknown type falls back to petty theft. -/
def crimeConfig (ctype : String) : Int × Int :=
  if ctype = "petty_theft" then (200, 800)
  else if ctype = "pickpocket" then (100, 500)
  else if ctype = "burglary" then (1000, 5000)
  else if ctype = "bank_heist" then (10000, 50000)
  else if ctype = "cyber_crime" then (5000, 25000)
  else (200, 800)

/-- Embedding of `EconomyManager.commit_crime`.  The success draw and the
drawn reward (`random.randint` over the crime's range) are parameters.  The
call reads the economy record, runs the multiplier calculation (with its
store mutations), then on success credits the prestige-scaled reward and on
failure fines `min(int(pocket * 0.2), max)`; each branch saves the record,
and everything raised inside the `try` block is caught and returned as a
failure triple. -/
def commitCrime (catalog : String → Option (List (String × ℚ)))
    (now : Tstamp) (s : LedgerState) (uid : Nat) (ctype : String)
    (success : Bool) (reward : Int) : LedgerState × (Bool × Int × Bool) :=
  match getUserEconomy now s uid with
  | (s1, none) => (s1, (false, 0, false))
  | (s1, some d) =>
    let s2 := (calculateTotalMultipliers catalog now s1 uid).1
    if success then
      let finalReward := calculatePrestigeBonus s2 uid reward
      let d1 := { d with
        pocket_balance := d.pocket_balance + finalReward,
        total_earned := d.total_earned + finalReward,
        total_crimes := d.total_crimes + 1,
        successful_crimes := d.successful_crimes + 1 }
      let d2 := addTransaction now d1 .earn_achievement finalReward
        ("Successful " ++ ctype)
      ((saveEcon s2 uid d2).1,
        if (saveEcon s2 uid d2).2 then (true, finalReward, false)
        else (false, 0, false))
    else
      let loss := min (pyInt ((d.pocket_balance : ℚ) * (1/5)))
        (crimeConfig ctype).2
      let d1 := { d with
        pocket_balance := d.pocket_balance - loss,
        total_spent := d.total_spent + loss,
        total_crimes := d.total_crimes + 1 }
      let d2 := addTransaction now d1 .spend_shop (-loss)
        ("Failed " ++ ctype)
      ((saveEcon s2 uid d2).1,
        if (saveEcon s2 uid d2).2 then (false, loss, true)
        else (false, 0, false))

/-- Constant `rob_min_amount` of `EconomyManager`. -/
def robMinAmount : Int := 100

/-- Embedding of `EconomyManager.rob_user`.  The success draw, the drawn
stolen amount (`random.randint(rob_min_amount, int(target_pocket * 0.3))`)
and the drawn penalty (`random.randint(100, 1000)`) are parameters.
Robbing yourself returns failure before the `try` block; both records are
read, both users' multiplier calculations run, and then on success the
target is debited and saved before the robber is credited and saved (when
`int(target_pocket * 0.3) < rob_min_amount` the `randint` call raises,
which the handler catches); on failure the robber pays
`min(penalty, pocket)`.  Everything raised inside the `try` block is
caught and returned as a failure. -/
def robUser (catalog : String → Option (List (String × ℚ))) (now : Tstamp)
    (s : LedgerState) (robber target : Nat) (success : Bool)
    (stolen penalty : Int) : LedgerState × (Bool × Int) :=
  if robber = target then (s, (false, 0))
  else
    match getUserEconomy now s robber with
    | (s1, none) => ((getUserEconomy now s1 target).1, (false, 0))
    | (s1, some dR) =>
      match getUserEconomy now s1 target with
      | (s2, none) => (s2, (false, 0))
      | (s2, some dT) =>
        if dT.pocket_balance < robMinAmount then (s2, (false, 0))
        else
          let s3 := (calculateTotalMultipliers catalog now s2 robber).1
          let s4 := (calculateTotalMultipliers catalog now s3 target).1
          if success then
            if pyInt ((dT.pocket_balance : ℚ) * (3/10)) < robMinAmount then
              (s4, (false, 0))
            else
              let dT1 := { dT with
                pocket_balance := dT.pocket_balance - stolen,
                times_robbed := dT.times_robbed + 1 }
              let dT2 := addTransaction now dT1 .admin_remove (-stolen)
                "Robbed"
              let dR1 := { dR with
                pocket_balance := dR.pocket_balance + stolen,
                total_earned := dR.total_earned + stolen,
                total_robs := dR.total_robs + 1,
                successful_robs := dR.successful_robs + 1 }
              let dR2 := addTransaction now dR1 .transfer_receive stolen
                "Robbed user"
              if (saveEcon s4 target dT2).2 then
                ((saveEcon (saveEcon s4 target dT2).1 robber dR2).1,
                  if (saveEcon (saveEcon s4 target dT2).1 robber dR2).2
                  then (true, stolen) else (false, 0))
              else ((saveEcon s4 target dT2).1, (false, 0))
          else
            let pen := min penalty dR.pocket_balance
            let dR1 := { dR with
              pocket_balance := dR.pocket_balance - pen,
              total_spent := dR.total_spent + pen,
              total_robs := dR.total_robs + 1 }
            let dR2 := addTransaction now dR1 .spend_shop (-pen)
              "Failed rob"
            ((saveEcon s4 robber dR2).1,
              if (saveEcon s4 robber dR2).2 then (false, pen)
              else (false, 0))

/-! Document-store file level (DatabaseManager): corruption recovery. -/

/-- The raw content of one on-disk document, as `_read_json_file`
distinguishes it: valid JSON decoding to `d`, a whitespace-only file (which
the code maps to the empty record), or undecodable bytes. -/
inductive FileContent (α : Type) where
  | valid (d : α)
  | empty
  | corrupt
deriving DecidableEq

/-- The files of one record kind (for instance `economy`): each entity's
current file `data/users/{id}/{kind}.json`, and the entries of the single
shared `data/backups` directory that belong to this kind.  A snapshot is
named `{stem}_{timestamp}.json`, and the stem of every user file of a kind
is just the kind, so the snapshots of ALL entities of one kind share one
pool; each entry carries its modification time (a larger value is
newer). -/
structure KindFS (α : Type) where
  current : Nat → Option (FileContent α)
  backups : List (Nat × FileContent α)

/-- Embedding of `_write_json_file` on entity `uid`'s file of this kind: the
previous current version, when there is one, is first copied by
`_create_backup` into the shared snapshot pool (named
`{kind}_{timestamp}.json`, with no entity id in the name), then the new
content atomically replaces the target. -/
def writeJsonFile {α : Type} (now : Nat) (fs : KindFS α) (uid : Nat)
    (d : α) : KindFS α :=
  { current := fun u => if u = uid then some (.valid d) else fs.current u,
    backups :=
      match fs.current uid with
      | some c => (now, c) :: fs.backups
      | none => fs.backups }

/-- Reading one snapshot file inside the recovery loop of
`_restore_from_backup`.  A valid snapshot yields its data, a whitespace-only
snapshot yields the empty record, and a corrupt snapshot raises
`DataCorruptionError` (its own snapshot search finds nothing, because
snapshot names never match the snapshot pattern of another snapshot), which
the loop catches and skips -- modelled as `none`. -/
def readBackupContent {α : Type} (emptyDoc : α) : FileContent α → Option α
  | .valid d => some d
  | .empty => some emptyDoc
  | .corrupt => none

/-- Insert one snapshot into a list ordered newest first. -/
def insertBackup {α : Type} (b : Nat × FileContent α) :
    List (Nat × FileContent α) → List (Nat × FileContent α)
  | [] => [b]
  | c :: rest =>
    if c.1 ≤ b.1 then b :: c :: rest else c :: insertBackup b rest

/-- The `backup_files.sort(key=mtime, reverse=True)` step of
`_restore_from_backup`: order the snapshots newest first. -/
def sortNewestFirst {α : Type} :
    List (Nat × FileContent α) → List (Nat × FileContent α)
  | [] => []
  | b :: rest => insertBackup b (sortNewestFirst rest)

/-- The scan loop of `_restore_from_backup` over the sorted snapshot list:
the first snapshot that deserializes wins; snapshots that raise are
skipped. -/
def scanBackups {α : Type} (emptyDoc : α) :
    List (Nat × FileContent α) → Option α
  | [] => none
  | b :: rest =>
    match readBackupContent emptyDoc b.2 with
    | some d => some d
    | none => scanBackups emptyDoc rest

/-- Embedding of `_restore_from_backup` for entity `uid`'s file: its glob
`{stem}_*.json` over the shared backups directory matches every entity's
snapshots of this kind, so the whole shared pool -- not only `uid`'s own
snapshots -- is enumerated newest first; on the first success the recovered
content (possibly another entity's record) is rewritten as `uid`'s current
version and returned, otherwise `none` is returned leaving the files
unchanged. -/
def restoreFromBackup {α : Type} (emptyDoc : α) (now : Nat) (fs : KindFS α)
    (uid : Nat) : KindFS α × Option α :=
  match scanBackups emptyDoc (sortNewestFirst fs.backups) with
  | some d => (writeJsonFile now fs uid d, some d)
  | none => (fs, none)

/-- The error a failed read surfaces. -/
inductive ReadError where
  | corruption
deriving DecidableEq

/-- Embedding of `_read_json_file`: a missing file reads as `none`, a
whitespace-only file as the empty record, valid content as itself; content
that fails to deserialize goes through `_restore_from_backup` and, when that
also fails, the read raises `DataCorruptionError`. -/
def readJsonFile {α : Type} (emptyDoc : α) (now : Nat) (fs : KindFS α)
    (uid : Nat) : KindFS α × Except ReadError (Option α) :=
  match fs.current uid with
  | none => (fs, .ok none)
  | some (.valid d) => (fs, .ok (some d))
  | some .empty => (fs, .ok (some emptyDoc))
  | some .corrupt =>
    match restoreFromBackup emptyDoc now fs uid with
    | (fs', some d) => (fs', .ok (some d))
    | (_, none) => (fs, .error .corruption)

/-! Document-store locking level (DatabaseManager.update_user_data).

`update_user_data` performs `get_user_data` (which acquires and releases the
per-file lock around the read) followed by `save_user_data` (which acquires
and releases the lock again around the write).  No lock is held across the
whole read-modify-write sequence.  Each locked section is therefore one
atomic step of a task; between the two steps of one call, steps of other
calls on the same key may run.  A counter increment through this path reads
the counter in its first step and writes the read value plus one in its
second step. -/

/-- The progress of one `update_user_data` increment call: phase 0 is about
to run its locked `get_user_data`, phase 1 is about to run its locked
`save_user_data` (writing the value it read plus one), phase 2 is done.
`localVal` is the counter value the call read. -/
structure UpdateTask where
  phase : Nat
  localVal : Int
deriving DecidableEq

/-- Run one atomic (locked) step of one `update_user_data` call against the
shared counter. -/
def counterStep (c : Int) (t : UpdateTask) : Int × UpdateTask :=
  if t.phase = 0 then (c, ⟨1, c⟩)
  else if t.phase = 1 then (t.localVal + 1, ⟨2, t.localVal⟩)
  else (c, t)

/-- Replace the task at one index. -/
def setTask (tasks : Nat → UpdateTask) (i : Nat) (t : UpdateTask) :
    Nat → UpdateTask :=
  fun j => if j = i then t else tasks j

/-- Execute a schedule: at each schedule entry, the named call runs its next
atomic locked section.  Returns the final counter value. -/
def runUpdates (c : Int) (tasks : Nat → UpdateTask) :
    List Nat → Int
  | [] => c
  | i :: rest =>
    let (c', t') := counterStep c (tasks i)
    runUpdates c' (setTask tasks i t') rest

/-- The fully serialized schedule: calls `start, start+1, ...` each run their
read step and then their write step with no interleaving. -/
def seqSchedule (start n : Nat) : List Nat :=
  match n with
  | 0 => []
  | n + 1 => start :: start :: seqSchedule (start + 1) n

/-- The pair of stored balances of an optional record (the observation the
balance-change claims quantify over). -/
def balancesOf (o : Option EconomyData) : Option (Int × Int) :=
  o.map fun d => (d.pocket_balance, d.bank_balance)

/-- The pair of lifetime totals of an optional record. -/
def totalsOf (o : Option EconomyData) : Option (Int × Int) :=
  o.map fun d => (d.total_earned, d.total_spent)

/-- Both stored balances are non-negative. -/
def balancesOk (d : EconomyData) : Prop :=
  0 ≤ d.pocket_balance ∧ 0 ≤ d.bank_balance

/-- Lifetime totals did not decrease between two optional records (and the
record did not disappear). -/
def totalsMono (a b : Option EconomyData) : Prop :=
  ∀ d, a = some d → ∃ d', b = some d' ∧
    d.total_earned ≤ d'.total_earned ∧ d.total_spent ≤ d'.total_spent

/-! Concrete fixtures used by witnesses and counterexamples. -/

/-- A fixed instant. -/
def ts0 : Tstamp := ⟨1, 1, 0⟩

/-- A later instant on another date, in another ISO week, past the work
cooldown. -/
def tsLater : Tstamp := ⟨2, 2, 100000⟩

/-- A fresh economy record matching the schema defaults (100 coins in the
pocket, empty bank with capacity 1000). -/
def econDefault : EconomyData :=
  { pocket_balance := 100, bank_balance := 0, bank_capacity := 1000
    total_earned := 100, total_spent := 0
    daily_work_used := false, daily_bonus_claimed := false
    weekly_bonus_claimed := false
    last_work_time := none, last_daily_time := none, last_weekly_time := none
    transaction_history := []
    total_gambled := 0, total_won := 0, gambling_streak := 0
    total_crimes := 0, successful_crimes := 0, total_robs := 0
    successful_robs := 0, times_robbed := 0
    total_work_sessions := 0, work_streak := 0
    bank_tier := 1, tax_bracket := 1, total_taxes_paid := 0 }

/-- A fresh prestige record matching the schema defaults. -/
def prestigeDefault : PrestigeData :=
  { prestige_level := 0, prestige_points := 0, total_prestiges := 0
    prestige_multiplier := 1, last_prestige_date := none
    lifetime_earnings_before_prestige := 0 }

/-- A store holding default economy records for users 1 and 2, with every
save succeeding. -/
def stTwoUsers : LedgerState :=
  { econ := fun u =>
      if u = 1 then some econDefault
      else if u = 2 then some econDefault else none
    prestige := fun _ => none
    effects := fun _ => none
    inventory := fun _ => none
    saveFail := [] }

/-- The two-user store with a save schedule under which the first three
saves succeed and the fourth raises: during a transfer from user 1 to user
2 these are the two reset saves inside `get_user_economy`, the save of the
debited sender, and the failing save of the credited receiver. -/
def stReceiverSaveFails : LedgerState :=
  { stTwoUsers with saveFail := [false, false, false, true] }

/-- An economy record with an empty pocket and 60000 in the bank (total
balance in tax bracket 3, rate 10 percent). -/
def econRichBank : EconomyData :=
  { econDefault with pocket_balance := 0, bank_balance := 60000 }

/-- A store where user 1 holds `econRichBank`. -/
def stRichBank : LedgerState :=
  { stTwoUsers with
    econ := fun u => if u = 1 then some econRichBank else none }

/-- An economy record that has earned 150000 (eligible for prestige level 1)
and spent 5000. -/
def econPrestigeReady : EconomyData :=
  { econDefault with total_earned := 150000, total_spent := 5000 }

/-- A store where user 1 holds `econPrestigeReady` and a default prestige
record. -/
def stPrestigeReady : LedgerState :=
  { stTwoUsers with
    econ := fun u => if u = 1 then some econPrestigeReady else none
    prestige := fun u => if u = 1 then some prestigeDefault else none }

/-- An economy record whose bonuses were all claimed on the date, week and
second of `ts0`. -/
def econAllClaimed : EconomyData :=
  { econDefault with
    daily_work_used := true, daily_bonus_claimed := true
    weekly_bonus_claimed := true
    last_work_time := some ts0, last_daily_time := some ts0
    last_weekly_time := some ts0 }

/-- A store where user 1 holds `econAllClaimed`. -/
def stAllClaimed : LedgerState :=
  { stTwoUsers with
    econ := fun u => if u = 1 then some econAllClaimed else none }

/-- An economy record whose bank is nearly full: pocket 100, bank 950,
capacity 1000. -/
def econNearCap : EconomyData :=
  { econDefault with bank_balance := 950 }

/-- A store where user 1 holds `econNearCap`. -/
def stCapacityEdge : LedgerState :=
  { stTwoUsers with
    econ := fun u => if u = 1 then some econNearCap else none }

/-- An economy record with zero in both pools. -/
def econZero : EconomyData :=
  { econDefault with pocket_balance := 0, total_earned := 0 }

/-- The two-user store extended with user 3 holding `econZero`. -/
def stWithZero : LedgerState :=
  { stTwoUsers with
    econ := fun u => if u = 3 then some econZero else stTwoUsers.econ u }

/-- A temporary work bonus that expired before `tsLater`. -/
def effExpired : ActiveItemEffect :=
  { effect_type := "work_bonus", value := 1/2, duration := some 10
    started_at := ts0 }

/-- A permanent ten percent money multiplier. -/
def effPermanent : ActiveItemEffect :=
  { effect_type := "money_multiplier", value := 1/10, duration := none
    started_at := ts0 }

/-- An active-effects record holding the expired temporary effect and the
permanent multiplier. -/
def effRecord : ActiveEffects :=
  { temporary_effects := [effExpired], permanent_effects := [effPermanent]
    last_update := ts0 }

/-- A store where user 1 has the active-effects record above and no
inventory record. -/
def stWithEffects : LedgerState :=
  { stTwoUsers with
    effects := fun u => if u = 1 then some effRecord else none }

/-- An inventory record holding one non-consumable item. -/
def invRecord : UserInventory :=
  { items := [("lucky_charm", ⟨1, 500, false⟩)], total_value := 0 }

/-- A store where user 1 has the active-effects record, the inventory
record above and a default prestige record. -/
def stFullRecords : LedgerState :=
  { stTwoUsers with
    effects := fun u => if u = 1 then some effRecord else none
    inventory := fun u => if u = 1 then some invRecord else none
    prestige := fun u => if u = 1 then some prestigeDefault else none }

/-- The economy-kind files of two users: user 1's current file holds
record 10, user 2's holds record 20, no snapshots yet. -/
def fsTwoUsers : KindFS Nat :=
  { current := fun u => if u = 1 then some (.valid 10)
      else if u = 2 then some (.valid 20) else none
    backups := [] }

/-- `fsTwoUsers` after user 2's record is rewritten to 21 at time 5:
`_write_json_file` first copies user 2's old content 20 into the shared
snapshot pool. -/
def fsAfterUser2Write : KindFS Nat := writeJsonFile 5 fsTwoUsers 2 21

/-- `fsAfterUser2Write` after user 1's current file is corrupted on disk. -/
def fsUser1Corrupt : KindFS Nat :=
  { fsAfterUser2Write with
    current := fun u => if u = 1 then some .corrupt
      else fsAfterUser2Write.current u }

/-- A kind where user 1's current file is corrupt, with shared-pool
snapshots: a corrupt one at time 5, a valid one with content 7 at time 9
(the newest), and a valid one with content 4 at time 3. -/
def fsRecoverable : KindFS Nat :=
  { current := fun u => if u = 1 then some .corrupt else none
    backups := [(5, .corrupt), (9, .valid 7), (3, .valid 4)] }

/-- A kind where user 1's current file is corrupt and the only snapshot of
the shared pool is also corrupt. -/
def fsUnrecoverable : KindFS Nat :=
  { current := fun u => if u = 1 then some .corrupt else none
    backups := [(5, .corrupt)] }

/-! Helper lemmas about the reset check, the save primitives and
`get_user_economy`. -/

lemma resetDaily_fields (now : Tstamp) (d : EconomyData) :
    (resetDaily now d).pocket_balance = d.pocket_balance ∧
    (resetDaily now d).bank_balance = d.bank_balance ∧
    (resetDaily now d).bank_capacity = d.bank_capacity ∧
    (resetDaily now d).total_earned = d.total_earned ∧
    (resetDaily now d).total_spent = d.total_spent ∧
    (resetDaily now d).transaction_history = d.transaction_history ∧
    (resetDaily now d).last_weekly_time = d.last_weekly_time ∧
    (resetDaily now d).last_work_time = d.last_work_time := by
  unfold resetDaily
  repeat' split
  all_goals simp

lemma resetWeekly_fields (now : Tstamp) (d : EconomyData) :
    (resetWeekly now d).pocket_balance = d.pocket_balance ∧
    (resetWeekly now d).bank_balance = d.bank_balance ∧
    (resetWeekly now d).bank_capacity = d.bank_capacity ∧
    (resetWeekly now d).total_earned = d.total_earned ∧
    (resetWeekly now d).total_spent = d.total_spent ∧
    (resetWeekly now d).transaction_history = d.transaction_history ∧
    (resetWeekly now d).daily_work_used = d.daily_work_used ∧
    (resetWeekly now d).daily_bonus_claimed = d.daily_bonus_claimed ∧
    (resetWeekly now d).last_work_time = d.last_work_time := by
  unfold resetWeekly
  repeat' split
  all_goals simp

lemma resetWork_fields (now : Tstamp) (d : EconomyData) :
    (resetWork now d).pocket_balance = d.pocket_balance ∧
    (resetWork now d).bank_balance = d.bank_balance ∧
    (resetWork now d).bank_capacity = d.bank_capacity ∧
    (resetWork now d).total_earned = d.total_earned ∧
    (resetWork now d).total_spent = d.total_spent ∧
    (resetWork now d).transaction_history = d.transaction_history ∧
    (resetWork now d).daily_bonus_claimed = d.daily_bonus_claimed ∧
    (resetWork now d).weekly_bonus_claimed = d.weekly_bonus_claimed := by
  unfold resetWork
  repeat' split
  all_goals simp

/-- The reset check never touches balances, capacity, lifetime totals or the
transaction history. -/
lemma checkReset_fields (now : Tstamp) (d : EconomyData) :
    (checkAndResetDailyWeekly now d).pocket_balance = d.pocket_balance ∧
    (checkAndResetDailyWeekly now d).bank_balance = d.bank_balance ∧
    (checkAndResetDailyWeekly now d).bank_capacity = d.bank_capacity ∧
    (checkAndResetDailyWeekly now d).total_earned = d.total_earned ∧
    (checkAndResetDailyWeekly now d).total_spent = d.total_spent ∧
    (checkAndResetDailyWeekly now d).transaction_history =
      d.transaction_history := by
  unfold checkAndResetDailyWeekly
  obtain ⟨a1, a2, a3, a4, a5, a6, -, -⟩ := resetDaily_fields now d
  obtain ⟨b1, b2, b3, b4, b5, b6, -, -, -⟩ :=
    resetWeekly_fields now (resetDaily now d)
  obtain ⟨c1, c2, c3, c4, c5, c6, -, -⟩ :=
    resetWork_fields now (resetWeekly now (resetDaily now d))
  exact ⟨by rw [c1, b1, a1], by rw [c2, b2, a2], by rw [c3, b3, a3],
    by rw [c4, b4, a4], by rw [c5, b5, a5], by rw [c6, b6, a6]⟩

lemma popSave_nil {s : LedgerState} (h : s.saveFail = []) :
    popSave s = (s, true) := by
  unfold popSave
  rw [h]

lemma saveEcon_nil {s : LedgerState} (uid : Nat) (d : EconomyData)
    (h : s.saveFail = []) :
    saveEcon s uid d =
      ({ s with econ := fun u => if u = uid then some d else s.econ u },
        true) := by
  unfold saveEcon
  rw [popSave_nil h]
  rfl

lemma saveEcon_cons_ok {s : LedgerState} (uid : Nat) (d : EconomyData)
    {rest : List Bool} (h : s.saveFail = false :: rest) :
    saveEcon s uid d =
      ({ s with econ := fun u => if u = uid then some d else s.econ u,
                saveFail := rest }, true) := by
  unfold saveEcon popSave
  rw [h]
  rfl

lemma saveEcon_cons_fail {s : LedgerState} (uid : Nat) (d : EconomyData)
    {rest : List Bool} (h : s.saveFail = true :: rest) :
    saveEcon s uid d = ({ s with saveFail := rest }, false) := by
  unfold saveEcon popSave
  rw [h]
  rfl

/-- A save either succeeds and replaces exactly the target record, or fails
and leaves every record unchanged. -/
lemma saveEcon_cases (s : LedgerState) (uid : Nat) (d : EconomyData) :
    ((saveEcon s uid d).2 = true ∧
      (saveEcon s uid d).1.econ =
        fun u => if u = uid then some d else s.econ u) ∨
    ((saveEcon s uid d).2 = false ∧ (saveEcon s uid d).1.econ = s.econ) := by
  unfold saveEcon popSave
  cases h : s.saveFail with
  | nil => left; exact ⟨rfl, rfl⟩
  | cons b rest =>
    cases b with
    | false => left; exact ⟨rfl, rfl⟩
    | true => right; exact ⟨rfl, rfl⟩

lemma getUserEconomy_none {now : Tstamp} {s : LedgerState} {uid : Nat}
    (h : s.econ uid = none) : getUserEconomy now s uid = (s, none) := by
  unfold getUserEconomy
  rw [h]

lemma getUserEconomy_some_nil {now : Tstamp} {s : LedgerState} {uid : Nat}
    {d : EconomyData} (h : s.econ uid = some d) (hs : s.saveFail = []) :
    getUserEconomy now s uid =
      ({ s with econ := fun u =>
          if u = uid then some (checkAndResetDailyWeekly now d)
          else s.econ u },
        some (checkAndResetDailyWeekly now d)) := by
  unfold getUserEconomy
  rw [h]
  dsimp only
  rw [saveEcon_nil uid _ hs]

/-- When `get_user_economy` produces no record the stored economy records are
untouched. -/
lemma getUserEconomy_snd_none {now : Tstamp} {s : LedgerState} {uid : Nat}
    (h : (getUserEconomy now s uid).2 = none) :
    (getUserEconomy now s uid).1.econ = s.econ := by
  unfold getUserEconomy at h ⊢
  cases he : s.econ uid with
  | none => rfl
  | some d =>
    rw [he] at h
    dsimp only at h ⊢
    rcases hsv : saveEcon s uid (checkAndResetDailyWeekly now d) with ⟨s1, ok⟩
    rw [hsv] at h
    have h2 := saveEcon_cases s uid (checkAndResetDailyWeekly now d)
    rw [hsv] at h2
    cases ok with
    | true =>
      dsimp only at h
      exact Option.noConfusion h
    | false =>
      dsimp only
      rcases h2 with ⟨hok, _⟩ | ⟨_, hecon⟩
      · dsimp only at hok
        exact Bool.noConfusion hok
      · exact hecon

/-- When `get_user_economy` produces a record, that record is the reset
version of the stored one and has just been saved back. -/
lemma getUserEconomy_snd_some {now : Tstamp} {s : LedgerState} {uid : Nat}
    {d' : EconomyData} (h : (getUserEconomy now s uid).2 = some d') :
    (getUserEconomy now s uid).1.econ uid = some d' ∧
    (∀ u, u ≠ uid →
      (getUserEconomy now s uid).1.econ u = s.econ u) ∧
    ∃ d0, s.econ uid = some d0 ∧ d' = checkAndResetDailyWeekly now d0 := by
  unfold getUserEconomy at h ⊢
  cases he : s.econ uid with
  | none =>
    rw [he] at h
    exact Option.noConfusion h
  | some d0 =>
    rw [he] at h
    dsimp only at h ⊢
    rcases hsv : saveEcon s uid (checkAndResetDailyWeekly now d0) with ⟨s1, ok⟩
    rw [hsv] at h
    have h2 := saveEcon_cases s uid (checkAndResetDailyWeekly now d0)
    rw [hsv] at h2
    cases ok with
    | false =>
      dsimp only at h
      exact Option.noConfusion h
    | true =>
      dsimp only at h ⊢
      injection h with h
      rcases h2 with ⟨_, hecon⟩ | ⟨hok, _⟩
      · dsimp only at hecon
        subst h
        refine ⟨?_, ?_, d0, rfl, rfl⟩
        · simp [hecon]
        · intro u hu
          simp [hecon, hu]
      · dsimp only at hok
        exact Bool.noConfusion hok

/-- The reset save inside `get_user_economy` never changes the balance pair
of any stored record. -/
lemma getUserEconomy_balancesOf (now : Tstamp) (s : LedgerState)
    (uid u : Nat) :
    balancesOf ((getUserEconomy now s uid).1.econ u) =
      balancesOf (s.econ u) := by
  unfold getUserEconomy
  cases he : s.econ uid with
  | none => rfl
  | some d0 =>
    dsimp only
    rcases hsv : saveEcon s uid (checkAndResetDailyWeekly now d0) with ⟨s1, ok⟩
    have h2 := saveEcon_cases s uid (checkAndResetDailyWeekly now d0)
    rw [hsv] at h2
    cases ok with
    | false =>
      dsimp only
      rcases h2 with ⟨hok, _⟩ | ⟨_, hecon⟩
      · dsimp only at hok
        exact Bool.noConfusion hok
      · rw [hecon]
    | true =>
      dsimp only
      rcases h2 with ⟨_, hecon⟩ | ⟨hok, _⟩
      · rw [hecon]
        by_cases hu : u = uid
        · subst hu
          rw [he]
          have hf := checkReset_fields now d0
          simp [balancesOf, hf.1, hf.2.1]
        · simp [hu]
      · dsimp only at hok
        exact Bool.noConfusion hok

/-- The work-cooldown step either keeps `daily_work_used` or clears it. -/
lemma resetWork_work_used (now : Tstamp) (d : EconomyData) :
    (resetWork now d).daily_work_used = d.daily_work_used ∨
    (resetWork now d).daily_work_used = false := by
  unfold resetWork
  repeat' split
  · right; rfl
  · left; rfl
  · left; rfl

/-- When the stored daily date differs from the current date, the reset
check clears both daily flags. -/
lemma checkReset_daily_cleared (now : Tstamp) (d : EconomyData) (t : Tstamp)
    (ht : d.last_daily_time = some t) (hne : t.dateId ≠ now.dateId) :
    (checkAndResetDailyWeekly now d).daily_bonus_claimed = false ∧
    (checkAndResetDailyWeekly now d).daily_work_used = false := by
  unfold checkAndResetDailyWeekly
  have hd : resetDaily now d =
      { d with daily_work_used := false, daily_bonus_claimed := false } := by
    unfold resetDaily
    rw [ht]
    simp [hne]
  rw [hd]
  obtain ⟨-, -, -, -, -, -, hwu, hbc, -⟩ :=
    resetWeekly_fields now
      { d with daily_work_used := false, daily_bonus_claimed := false }
  constructor
  · obtain ⟨-, -, -, -, -, -, hbc2, -⟩ :=
      resetWork_fields now (resetWeekly now
        { d with daily_work_used := false, daily_bonus_claimed := false })
    rw [hbc2, hbc]
  · rcases resetWork_work_used now (resetWeekly now
        { d with daily_work_used := false, daily_bonus_claimed := false })
      with h | h
    · rw [h, hwu]
    · exact h

/-- When the stored ISO week differs from the current week, the reset check
clears the weekly flag. -/
lemma checkReset_weekly_cleared (now : Tstamp) (d : EconomyData) (t : Tstamp)
    (ht : d.last_weekly_time = some t) (hne : now.week ≠ t.week) :
    (checkAndResetDailyWeekly now d).weekly_bonus_claimed = false := by
  unfold checkAndResetDailyWeekly
  obtain ⟨-, -, -, -, -, -, hlw, -⟩ := resetDaily_fields now d
  have hx : (resetDaily now d).last_weekly_time = some t := by rw [hlw, ht]
  have hw : resetWeekly now (resetDaily now d) =
      { resetDaily now d with weekly_bonus_claimed := false } := by
    unfold resetWeekly
    rw [hx]
    simp only [hne, ne_eq, not_false_eq_true, if_true]
    rw [← hx]
  rw [hw]
  obtain ⟨-, -, -, -, -, -, -, hwk⟩ :=
    resetWork_fields now { resetDaily now d with weekly_bonus_claimed := false }
  rw [hwk]

/-- When the work cooldown has elapsed, the reset check clears
`daily_work_used`. -/
lemma checkReset_work_cleared (now : Tstamp) (d : EconomyData) (t : Tstamp)
    (ht : d.last_work_time = some t)
    (hcool : (now.seconds : Int) - (t.seconds : Int) ≥
      workCooldownHours * 3600) :
    (checkAndResetDailyWeekly now d).daily_work_used = false := by
  unfold checkAndResetDailyWeekly
  obtain ⟨-, -, -, -, -, -, -, hlw1⟩ := resetDaily_fields now d
  obtain ⟨-, -, -, -, -, -, -, -, hlw2⟩ :=
    resetWeekly_fields now (resetDaily now d)
  unfold resetWork
  rw [hlw2, hlw1, ht]
  simp [hcool]

/-- The reset save inside `get_user_economy` never changes the lifetime
totals of any stored record. -/
lemma getUserEconomy_totalsOf (now : Tstamp) (s : LedgerState)
    (uid u : Nat) :
    totalsOf ((getUserEconomy now s uid).1.econ u) = totalsOf (s.econ u) := by
  unfold getUserEconomy
  cases he : s.econ uid with
  | none => rfl
  | some d0 =>
    dsimp only
    rcases hsv : saveEcon s uid (checkAndResetDailyWeekly now d0) with ⟨s1, ok⟩
    have h2 := saveEcon_cases s uid (checkAndResetDailyWeekly now d0)
    rw [hsv] at h2
    cases ok with
    | false =>
      dsimp only
      rcases h2 with ⟨hok, _⟩ | ⟨_, hecon⟩
      · dsimp only at hok
        exact Bool.noConfusion hok
      · rw [hecon]
    | true =>
      dsimp only
      rcases h2 with ⟨_, hecon⟩ | ⟨hok, _⟩
      · rw [hecon]
        by_cases hu : u = uid
        · subst hu
          rw [he]
          have hf := checkReset_fields now d0
          simp [totalsOf, hf.2.2.2.1, hf.2.2.2.2.1]
        · simp [hu]
      · dsimp only at hok
        exact Bool.noConfusion hok

/-- Unfolding one scheduled step. -/
lemma runUpdates_cons (c : Int) (tasks : Nat → UpdateTask) (i : Nat)
    (sched : List Nat) :
    runUpdates c tasks (i :: sched) =
      runUpdates (counterStep c (tasks i)).1
        (setTask tasks i (counterStep c (tasks i)).2) sched := by
  conv_lhs => unfold runUpdates

/-- The locked read step of a fresh call. -/
lemma counterStep_phase0 (c v : Int) :
    counterStep c ⟨0, v⟩ = (c, ⟨1, c⟩) := rfl

/-- The locked write step of a call that has read `v`. -/
lemma counterStep_phase1 (c v : Int) :
    counterStep c ⟨1, v⟩ = (v + 1, ⟨2, v⟩) := rfl

/-- Running one fresh increment call to completion (its locked read, then its
locked write) bumps the counter by one and marks the task done. -/
lemma runUpdates_two_steps (c : Int) (tasks : Nat → UpdateTask) (i : Nat)
    (sched : List Nat) (h : tasks i = ⟨0, 0⟩) :
    runUpdates c tasks (i :: i :: sched) =
      runUpdates (c + 1) (setTask tasks i ⟨2, c⟩) sched := by
  rw [runUpdates_cons, h, counterStep_phase0]
  dsimp only
  rw [runUpdates_cons]
  have hset : setTask tasks i ⟨1, c⟩ i = ⟨1, c⟩ := by simp [setTask]
  rw [hset, counterStep_phase1]
  dsimp only
  have hss : setTask (setTask tasks i ⟨1, c⟩) i ⟨2, c⟩ =
      setTask tasks i ⟨2, c⟩ := by
    funext j
    by_cases hj : j = i <;> simp [setTask, hj]
  rw [hss]

/-- Serialized increments add up: n fresh calls run one after another move
the counter from c to c + n. -/
lemma runUpdates_seq (n : Nat) : ∀ (start : Nat) (c : Int)
    (tasks : Nat → UpdateTask),
    (∀ j, start ≤ j → tasks j = ⟨0, 0⟩) →
    runUpdates c tasks (seqSchedule start n) = c + n := by
  induction n with
  | zero =>
    intro start c tasks _
    simp [seqSchedule, runUpdates]
  | succ n ih =>
    intro start c tasks h
    have hrun := runUpdates_two_steps c tasks start (seqSchedule (start + 1) n)
      (h start le_rfl)
    unfold seqSchedule
    rw [hrun, ih (start + 1) (c + 1) (setTask tasks start ⟨2, c⟩) ?_]
    · push_cast
      ring
    · intro j hj
      have hji : j ≠ start := by omega
      unfold setTask
      rw [if_neg hji]
      exact h j (by omega)

/-! Structural lemmas about balance-pool access and the transaction log. -/

lemma getLoc_setLoc (d : EconomyData) (loc : Location) (v : Int) :
    getLocBalance (setLocBalance d loc v) loc = v := by
  cases loc <;> rfl

lemma getLoc_setLoc_other (d : EconomyData) (loc : Location) (v : Int) :
    getLocBalance (setLocBalance d loc v) (otherLoc loc) =
      getLocBalance d (otherLoc loc) := by
  cases loc <;> rfl

lemma setLoc_fields (d : EconomyData) (loc : Location) (v : Int) :
    (setLocBalance d loc v).total_earned = d.total_earned ∧
    (setLocBalance d loc v).total_spent = d.total_spent ∧
    (setLocBalance d loc v).transaction_history = d.transaction_history ∧
    (setLocBalance d loc v).bank_capacity = d.bank_capacity := by
  cases loc <;> exact ⟨rfl, rfl, rfl, rfl⟩

lemma addTransaction_fields (now : Tstamp) (d : EconomyData)
    (tt : TransactionType) (a : Int) (desc : String) :
    (addTransaction now d tt a desc).pocket_balance = d.pocket_balance ∧
    (addTransaction now d tt a desc).bank_balance = d.bank_balance ∧
    (addTransaction now d tt a desc).total_earned = d.total_earned ∧
    (addTransaction now d tt a desc).total_spent = d.total_spent ∧
    (addTransaction now d tt a desc).bank_capacity = d.bank_capacity :=
  ⟨rfl, rfl, rfl, rfl, rfl⟩

/-- Appending keeps the entry at the tail even when the log is trimmed to
its cap. -/
lemma addTransaction_append (now : Tstamp) (d : EconomyData)
    (tt : TransactionType) (a : Int) (desc : String) :
    ∃ pre, (addTransaction now d tt a desc).transaction_history =
      pre ++ [⟨now, tt, a, desc⟩] := by
  unfold addTransaction
  dsimp only
  split
  · next hlen =>
    have hk : (d.transaction_history ++
        [(⟨now, tt, a, desc⟩ : Transaction)]).length -
        maxTransactionHistory ≤ d.transaction_history.length := by
      simp only [List.length_append, List.length_cons, List.length_nil,
        maxTransactionHistory]
      omega
    exact ⟨_, List.drop_append_of_le_length hk⟩
  · exact ⟨d.transaction_history, rfl⟩

/-- The log stays within its cap and grows by one entry until the cap is
reached. -/
lemma addTransaction_length (now : Tstamp) (d : EconomyData)
    (tt : TransactionType) (a : Int) (desc : String) :
    (addTransaction now d tt a desc).transaction_history.length =
      min (d.transaction_history.length + 1) maxTransactionHistory := by
  unfold addTransaction
  dsimp only
  split
  · next hlen =>
    rw [List.length_drop]
    simp only [List.length_append, List.length_cons, List.length_nil] at hlen ⊢
    omega
  · next hlen =>
    simp only [List.length_append, List.length_cons, List.length_nil] at hlen ⊢
    omega

lemma getLocBalance_checkReset (now : Tstamp) (d : EconomyData)
    (loc : Location) :
    getLocBalance (checkAndResetDailyWeekly now d) loc = getLocBalance d loc
    := by
  obtain ⟨hp, hb, -, -, -, -⟩ := checkReset_fields now d
  cases loc
  · exact hp
  · exact hb

lemma getLoc_addTransaction (now : Tstamp) (d : EconomyData)
    (tt : TransactionType) (a : Int) (desc : String) (loc : Location) :
    getLocBalance (addTransaction now d tt a desc) loc = getLocBalance d loc
    := by
  cases loc <;> rfl

lemma getLoc_set_earned (d : EconomyData) (v : Int) (loc : Location) :
    getLocBalance { d with total_earned := v } loc = getLocBalance d loc := by
  cases loc <;> rfl

lemma getLoc_set_spent (d : EconomyData) (v : Int) (loc : Location) :
    getLocBalance { d with total_spent := v } loc = getLocBalance d loc := by
  cases loc <;> rfl

lemma addTransaction_earned (now : Tstamp) (d : EconomyData)
    (tt : TransactionType) (a : Int) (desc : String) :
    (addTransaction now d tt a desc).total_earned = d.total_earned := rfl

lemma addTransaction_spent (now : Tstamp) (d : EconomyData)
    (tt : TransactionType) (a : Int) (desc : String) :
    (addTransaction now d tt a desc).total_spent = d.total_spent := rfl

lemma set_earned_earned (d : EconomyData) (v : Int) :
    ({ d with total_earned := v } : EconomyData).total_earned = v := rfl

lemma set_earned_spent (d : EconomyData) (v : Int) :
    ({ d with total_earned := v } : EconomyData).total_spent = d.total_spent
    := rfl

lemma set_spent_spent (d : EconomyData) (v : Int) :
    ({ d with total_spent := v } : EconomyData).total_spent = v := rfl

lemma set_spent_earned (d : EconomyData) (v : Int) :
    ({ d with total_spent := v } : EconomyData).total_earned = d.total_earned
    := rfl

/-- A save leaves a record unchanged unless it is the successfully saved
target. -/
lemma saveEcon_econ_or (s : LedgerState) (uid : Nat) (d : EconomyData)
    (u : Nat) :
    (saveEcon s uid d).1.econ u = s.econ u ∨
    (u = uid ∧ (saveEcon s uid d).1.econ u = some d) := by
  rcases saveEcon_cases s uid d with ⟨-, hecon⟩ | ⟨-, hecon⟩
  · by_cases hu : u = uid
    · right
      subst hu
      rw [hecon]
      simp
    · left
      rw [hecon]
      simp [hu]
  · left
    rw [hecon]

/-- Post-state of `add_money`: every record either keeps its balances and
totals, or is the explicitly credited record of the target user. -/
lemma addMoney_post (now : Tstamp) (s : LedgerState) (uid : Nat)
    (amount : Int) (loc : Location) (tt : TransactionType) (desc : String)
    (u : Nat) :
    (balancesOf ((addMoney now s uid amount loc tt desc).1.econ u) =
        balancesOf (s.econ u) ∧
      totalsOf ((addMoney now s uid amount loc tt desc).1.econ u) =
        totalsOf (s.econ u)) ∨
    (u = uid ∧ 0 < amount ∧ ∃ d d',
      s.econ uid = some d ∧
      (addMoney now s uid amount loc tt desc).1.econ u = some d' ∧
      getLocBalance d' loc = getLocBalance d loc + amount ∧
      getLocBalance d' (otherLoc loc) = getLocBalance d (otherLoc loc) ∧
      d'.total_earned = d.total_earned + amount ∧
      d'.total_spent = d.total_spent ∧
      ∃ pre, d'.transaction_history = pre ++ [⟨now, tt, amount, desc⟩]) := by
  unfold addMoney
  by_cases ham : amount ≤ 0
  · rw [if_pos ham]
    left
    exact ⟨rfl, rfl⟩
  · rw [if_neg ham]
    have hb := getUserEconomy_balancesOf now s uid u
    have ht := getUserEconomy_totalsOf now s uid u
    rcases hge : getUserEconomy now s uid with ⟨s1, od⟩
    rw [hge] at hb ht
    cases od with
    | none =>
      dsimp only
      left
      exact ⟨hb, ht⟩
    | some d1 =>
      dsimp only
      have h2 : (getUserEconomy now s uid).2 = some d1 := by rw [hge]
      obtain ⟨hself, hothers, d0, hd0, hd1⟩ := getUserEconomy_snd_some h2
      rw [hge] at hself hothers
      dsimp only at hself hothers
      rcases saveEcon_econ_or s1 uid
          (addTransaction now
            { setLocBalance d1 loc (getLocBalance d1 loc + amount) with
              total_earned :=
                (setLocBalance d1 loc
                  (getLocBalance d1 loc + amount)).total_earned + amount }
            tt amount desc) u with hkeep | ⟨hu, hnew⟩
      · left
        by_cases hu : u = uid
        · subst hu
          rw [hkeep, hself]
          subst hd1
          constructor
          · have hf := checkReset_fields now d0
            rw [hd0]
            simp [balancesOf, hf.1, hf.2.1]
          · have hf := checkReset_fields now d0
            rw [hd0]
            simp [totalsOf, hf.2.2.2.1, hf.2.2.2.2.1]
        · rw [hkeep, hothers u hu]
          exact ⟨rfl, rfl⟩
      · right
        subst hu
        subst hd1
        refine ⟨rfl, by omega, d0, _, hd0, hnew, ?_, ?_, ?_, ?_,
          addTransaction_append now _ tt amount desc⟩
        · rw [getLoc_addTransaction, getLoc_set_earned, getLoc_setLoc,
            getLocBalance_checkReset]
        · rw [getLoc_addTransaction, getLoc_set_earned, getLoc_setLoc_other,
            getLocBalance_checkReset]
        · rw [addTransaction_earned, set_earned_earned,
            (setLoc_fields _ _ _).1, (checkReset_fields now d0).2.2.2.1]
        · rw [addTransaction_spent, set_earned_spent,
            (setLoc_fields _ _ _).2.1, (checkReset_fields now d0).2.2.2.2.1]

/-- Post-state of `remove_money`: every record either keeps its balances and
totals, or is the explicitly debited record of the target user, whose pool
covered the amount. -/
lemma removeMoney_post (now : Tstamp) (s : LedgerState) (uid : Nat)
    (amount : Int) (loc : Location) (tt : TransactionType) (desc : String)
    (u : Nat) :
    (balancesOf ((removeMoney now s uid amount loc tt desc).1.econ u) =
        balancesOf (s.econ u) ∧
      totalsOf ((removeMoney now s uid amount loc tt desc).1.econ u) =
        totalsOf (s.econ u)) ∨
    (u = uid ∧ 0 < amount ∧ ∃ d d',
      s.econ uid = some d ∧
      (removeMoney now s uid amount loc tt desc).1.econ u = some d' ∧
      amount ≤ getLocBalance d loc ∧
      getLocBalance d' loc = getLocBalance d loc - amount ∧
      getLocBalance d' (otherLoc loc) = getLocBalance d (otherLoc loc) ∧
      d'.total_spent = d.total_spent + amount ∧
      d'.total_earned = d.total_earned ∧
      ∃ pre, d'.transaction_history = pre ++ [⟨now, tt, -amount, desc⟩]) := by
  unfold removeMoney
  by_cases ham : amount ≤ 0
  · rw [if_pos ham]
    left
    exact ⟨rfl, rfl⟩
  · rw [if_neg ham]
    have hb := getUserEconomy_balancesOf now s uid u
    have ht := getUserEconomy_totalsOf now s uid u
    rcases hge : getUserEconomy now s uid with ⟨s1, od⟩
    rw [hge] at hb ht
    cases od with
    | none =>
      dsimp only
      left
      exact ⟨hb, ht⟩
    | some d1 =>
      dsimp only
      have h2 : (getUserEconomy now s uid).2 = some d1 := by rw [hge]
      obtain ⟨hself, hothers, d0, hd0, hd1⟩ := getUserEconomy_snd_some h2
      rw [hge] at hself hothers
      dsimp only at hself hothers
      by_cases hins : getLocBalance d1 loc < amount
      · rw [if_pos hins]
        left
        exact ⟨hb, ht⟩
      · rw [if_neg hins]
        rcases saveEcon_econ_or s1 uid
            (addTransaction now
              { setLocBalance d1 loc (getLocBalance d1 loc - amount) with
                total_spent :=
                  (setLocBalance d1 loc
                    (getLocBalance d1 loc - amount)).total_spent + amount }
              tt (-amount) desc) u with hkeep | ⟨hu, hnew⟩
        · left
          by_cases hu : u = uid
          · subst hu
            rw [hkeep, hself]
            subst hd1
            have hf := checkReset_fields now d0
            rw [hd0]
            constructor
            · simp [balancesOf, hf.1, hf.2.1]
            · simp [totalsOf, hf.2.2.2.1, hf.2.2.2.2.1]
          · rw [hkeep, hothers u hu]
            exact ⟨rfl, rfl⟩
        · right
          subst hu
          subst hd1
          rw [getLocBalance_checkReset] at hins
          refine ⟨rfl, by omega, d0, _, hd0, hnew, by omega, ?_, ?_, ?_, ?_,
            addTransaction_append now _ tt (-amount) desc⟩
          · rw [getLoc_addTransaction, getLoc_set_spent, getLoc_setLoc,
              getLocBalance_checkReset]
          · rw [getLoc_addTransaction, getLoc_set_spent, getLoc_setLoc_other,
              getLocBalance_checkReset]
          · rw [addTransaction_spent, set_spent_spent,
              (setLoc_fields _ _ _).2.1, (checkReset_fields now d0).2.2.2.2.1]
          · rw [addTransaction_earned, set_spent_earned,
              (setLoc_fields _ _ _).1, (checkReset_fields now d0).2.2.2.1]

/-- A debit that did not return success leaves every stored balance pair
unchanged. -/
lemma removeMoney_failed_balances (now : Tstamp) (s : LedgerState)
    (uid : Nat) (amount : Int) (loc : Location) (tt : TransactionType)
    (desc : String)
    (h : (removeMoney now s uid amount loc tt desc).2 ≠ .ok true) :
    ∀ u, balancesOf ((removeMoney now s uid amount loc tt desc).1.econ u) =
      balancesOf (s.econ u) := by
  intro u
  unfold removeMoney at h ⊢
  by_cases ham : amount ≤ 0
  · rw [if_pos ham]
  · rw [if_neg ham] at h ⊢
    have hb := getUserEconomy_balancesOf now s uid u
    rcases hge : getUserEconomy now s uid with ⟨s1, od⟩
    rw [hge] at hb h
    cases od with
    | none => exact hb
    | some d1 =>
      dsimp only at h ⊢
      by_cases hins : getLocBalance d1 loc < amount
      · rw [if_pos hins]
        exact hb
      · rw [if_neg hins] at h ⊢
        rcases saveEcon_cases s1 uid
            (addTransaction now
              { setLocBalance d1 loc (getLocBalance d1 loc - amount) with
                total_spent :=
                  (setLocBalance d1 loc
                    (getLocBalance d1 loc - amount)).total_spent + amount }
              tt (-amount) desc) with ⟨hok, -⟩ | ⟨hok, hecon⟩
        · rw [hok] at h
          exact absurd rfl h
        · rw [hecon]
          exact hb

lemma set_pocket_bank_fields (d : EconomyData) (x y : Int) :
    ({ d with pocket_balance := x, bank_balance := y } :
      EconomyData).pocket_balance = x ∧
    ({ d with pocket_balance := x, bank_balance := y } :
      EconomyData).bank_balance = y ∧
    ({ d with pocket_balance := x, bank_balance := y } :
      EconomyData).bank_capacity = d.bank_capacity ∧
    ({ d with pocket_balance := x, bank_balance := y } :
      EconomyData).total_earned = d.total_earned ∧
    ({ d with pocket_balance := x, bank_balance := y } :
      EconomyData).total_spent = d.total_spent :=
  ⟨rfl, rfl, rfl, rfl, rfl⟩

/-- Post-state of `deposit_to_bank`: every record either keeps its balances
and totals, or is the target record with the amount moved from pocket to
bank, under both guards (pocket covers the amount, capacity not
exceeded). -/
lemma depositToBank_post (now : Tstamp) (s : LedgerState) (uid : Nat)
    (amount : Int) (u : Nat) :
    (balancesOf ((depositToBank now s uid amount).1.econ u) =
        balancesOf (s.econ u) ∧
      totalsOf ((depositToBank now s uid amount).1.econ u) =
        totalsOf (s.econ u)) ∨
    (u = uid ∧ 0 < amount ∧ ∃ d d',
      s.econ uid = some d ∧
      (depositToBank now s uid amount).1.econ u = some d' ∧
      amount ≤ d.pocket_balance ∧
      d.bank_balance + amount ≤ d.bank_capacity ∧
      d'.pocket_balance = d.pocket_balance - amount ∧
      d'.bank_balance = d.bank_balance + amount ∧
      d'.bank_capacity = d.bank_capacity ∧
      d'.total_earned = d.total_earned ∧
      d'.total_spent = d.total_spent) := by
  unfold depositToBank
  by_cases ham : amount ≤ 0
  · rw [if_pos ham]
    left
    exact ⟨rfl, rfl⟩
  · rw [if_neg ham]
    have hb := getUserEconomy_balancesOf now s uid u
    have ht := getUserEconomy_totalsOf now s uid u
    rcases hge : getUserEconomy now s uid with ⟨s1, od⟩
    rw [hge] at hb ht
    cases od with
    | none =>
      dsimp only
      left
      exact ⟨hb, ht⟩
    | some d1 =>
      dsimp only
      have h2 : (getUserEconomy now s uid).2 = some d1 := by rw [hge]
      obtain ⟨hself, hothers, d0, hd0, hd1⟩ := getUserEconomy_snd_some h2
      rw [hge] at hself hothers
      dsimp only at hself hothers
      have hf := checkReset_fields now d0
      by_cases hins : d1.pocket_balance < amount
      · rw [if_pos hins]
        left
        exact ⟨hb, ht⟩
      · rw [if_neg hins]
        by_cases hcap : d1.bank_capacity < d1.bank_balance + amount
        · rw [if_pos hcap]
          left
          exact ⟨hb, ht⟩
        · rw [if_neg hcap]
          rcases saveEcon_econ_or s1 uid
              (addTransaction now
                { d1 with
                  pocket_balance := d1.pocket_balance - amount,
                  bank_balance := d1.bank_balance + amount }
                .bank_deposit amount "Deposited to bank") u
            with hkeep | ⟨hu, hnew⟩
          · left
            by_cases hu : u = uid
            · subst hu
              rw [hkeep, hself]
              subst hd1
              rw [hd0]
              exact ⟨by simp [balancesOf, hf.1, hf.2.1],
                by simp [totalsOf, hf.2.2.2.1, hf.2.2.2.2.1]⟩
            · rw [hkeep, hothers u hu]
              exact ⟨rfl, rfl⟩
          · right
            subst hu
            subst hd1
            rw [hf.1] at hins
            rw [hf.2.1, hf.2.2.1] at hcap
            refine ⟨rfl, by omega, d0, _, hd0, hnew, by omega, by omega,
              ?_, ?_, ?_, ?_, ?_⟩
            · rw [(addTransaction_fields now _ _ _ _).1,
                (set_pocket_bank_fields _ _ _).1, hf.1]
            · rw [(addTransaction_fields now _ _ _ _).2.1,
                (set_pocket_bank_fields _ _ _).2.1, hf.2.1]
            · rw [(addTransaction_fields now _ _ _ _).2.2.2.2,
                (set_pocket_bank_fields _ _ _).2.2.1, hf.2.2.1]
            · rw [(addTransaction_fields now _ _ _ _).2.2.1,
                (set_pocket_bank_fields _ _ _).2.2.2.1, hf.2.2.2.1]
            · rw [(addTransaction_fields now _ _ _ _).2.2.2.1,
                (set_pocket_bank_fields _ _ _).2.2.2.2, hf.2.2.2.2.1]

/-- Post-state of `withdraw_from_bank`: every record either keeps its
balances and totals, or is the target record with the amount moved from bank
to pocket, under the guard that the bank covers the amount. -/
lemma withdrawFromBank_post (now : Tstamp) (s : LedgerState) (uid : Nat)
    (amount : Int) (u : Nat) :
    (balancesOf ((withdrawFromBank now s uid amount).1.econ u) =
        balancesOf (s.econ u) ∧
      totalsOf ((withdrawFromBank now s uid amount).1.econ u) =
        totalsOf (s.econ u)) ∨
    (u = uid ∧ 0 < amount ∧ ∃ d d',
      s.econ uid = some d ∧
      (withdrawFromBank now s uid amount).1.econ u = some d' ∧
      amount ≤ d.bank_balance ∧
      d'.bank_balance = d.bank_balance - amount ∧
      d'.pocket_balance = d.pocket_balance + amount ∧
      d'.total_earned = d.total_earned ∧
      d'.total_spent = d.total_spent) := by
  unfold withdrawFromBank
  by_cases ham : amount ≤ 0
  · rw [if_pos ham]
    left
    exact ⟨rfl, rfl⟩
  · rw [if_neg ham]
    have hb := getUserEconomy_balancesOf now s uid u
    have ht := getUserEconomy_totalsOf now s uid u
    rcases hge : getUserEconomy now s uid with ⟨s1, od⟩
    rw [hge] at hb ht
    cases od with
    | none =>
      dsimp only
      left
      exact ⟨hb, ht⟩
    | some d1 =>
      dsimp only
      have h2 : (getUserEconomy now s uid).2 = some d1 := by rw [hge]
      obtain ⟨hself, hothers, d0, hd0, hd1⟩ := getUserEconomy_snd_some h2
      rw [hge] at hself hothers
      dsimp only at hself hothers
      have hf := checkReset_fields now d0
      by_cases hins : d1.bank_balance < amount
      · rw [if_pos hins]
        left
        exact ⟨hb, ht⟩
      · rw [if_neg hins]
        rcases saveEcon_econ_or s1 uid
            (addTransaction now
              { d1 with
                bank_balance := d1.bank_balance - amount,
                pocket_balance := d1.pocket_balance + amount }
              .bank_withdraw amount "Withdrew from bank") u
          with hkeep | ⟨hu, hnew⟩
        · left
          by_cases hu : u = uid
          · subst hu
            rw [hkeep, hself]
            subst hd1
            rw [hd0]
            exact ⟨by simp [balancesOf, hf.1, hf.2.1],
              by simp [totalsOf, hf.2.2.2.1, hf.2.2.2.2.1]⟩
          · rw [hkeep, hothers u hu]
            exact ⟨rfl, rfl⟩
        · right
          subst hu
          subst hd1
          rw [hf.2.1] at hins
          refine ⟨rfl, by omega, d0, _, hd0, hnew, by omega,
            ?_, ?_, ?_, ?_⟩
          · rw [(addTransaction_fields now _ _ _ _).2.1,
              (set_pocket_bank_fields _ _ _).2.1, hf.2.1]
          · rw [(addTransaction_fields now _ _ _ _).1,
              (set_pocket_bank_fields _ _ _).1, hf.1]
          · rw [(addTransaction_fields now _ _ _ _).2.2.1,
              (set_pocket_bank_fields _ _ _).2.2.2.1, hf.2.2.2.1]
          · rw [(addTransaction_fields now _ _ _ _).2.2.2.1,
              (set_pocket_bank_fields _ _ _).2.2.2.2, hf.2.2.2.2.1]

lemma set_pocket_spent_fields (d : EconomyData) (x y : Int) :
    ({ d with pocket_balance := x, total_spent := y} :
      EconomyData).pocket_balance = x ∧
    ({ d with pocket_balance := x, total_spent := y} :
      EconomyData).bank_balance = d.bank_balance ∧
    ({ d with pocket_balance := x, total_spent := y} :
      EconomyData).total_spent = y ∧
    ({ d with pocket_balance := x, total_spent := y} :
      EconomyData).total_earned = d.total_earned :=
  ⟨rfl, rfl, rfl, rfl⟩

lemma set_pocket_earned_fields (d : EconomyData) (x y : Int) :
    ({ d with pocket_balance := x, total_earned := y} :
      EconomyData).pocket_balance = x ∧
    ({ d with pocket_balance := x, total_earned := y} :
      EconomyData).bank_balance = d.bank_balance ∧
    ({ d with pocket_balance := x, total_earned := y} :
      EconomyData).total_earned = y ∧
    ({ d with pocket_balance := x, total_earned := y} :
      EconomyData).total_spent = d.total_spent :=
  ⟨rfl, rfl, rfl, rfl⟩

/-- Post-state of `transfer_money`: every record either keeps its balances
and totals, or is the debited sender record (pocket decreased by the amount
it covered, lifetime-spent increased, transfer-out entry appended), or is
the credited receiver record (pocket increased, lifetime-earned increased,
transfer-in entry appended). -/
lemma transferMoney_post (now : Tstamp) (s : LedgerState)
    (sender receiver : Nat) (amount : Int) (u : Nat) :
    (balancesOf ((transferMoney now s sender receiver amount).1.econ u) =
        balancesOf (s.econ u) ∧
      totalsOf ((transferMoney now s sender receiver amount).1.econ u) =
        totalsOf (s.econ u)) ∨
    (u = sender ∧ 0 < amount ∧ ∃ d d',
      s.econ sender = some d ∧
      (transferMoney now s sender receiver amount).1.econ u = some d' ∧
      amount ≤ d.pocket_balance ∧
      d'.pocket_balance = d.pocket_balance - amount ∧
      d'.bank_balance = d.bank_balance ∧
      d'.total_spent = d.total_spent + amount ∧
      d'.total_earned = d.total_earned ∧
      ∃ pre, d'.transaction_history =
        pre ++ [⟨now, .transfer_send, -amount, "Transfer to user"⟩]) ∨
    (u = receiver ∧ 0 < amount ∧ ∃ d d',
      s.econ receiver = some d ∧
      (transferMoney now s sender receiver amount).1.econ u = some d' ∧
      d'.pocket_balance = d.pocket_balance + amount ∧
      d'.bank_balance = d.bank_balance ∧
      d'.total_earned = d.total_earned + amount ∧
      d'.total_spent = d.total_spent ∧
      ∃ pre, d'.transaction_history =
        pre ++ [⟨now, .transfer_receive, amount, "Transfer from user"⟩]) := by
  unfold transferMoney
  by_cases ham : amount ≤ 0
  · rw [if_pos ham]
    left
    exact ⟨rfl, rfl⟩
  rw [if_neg ham]
  by_cases hsr : sender = receiver
  · rw [if_pos hsr]
    left
    exact ⟨rfl, rfl⟩
  rw [if_neg hsr]
  have hbS := getUserEconomy_balancesOf now s sender u
  have htS := getUserEconomy_totalsOf now s sender u
  rcases hge1 : getUserEconomy now s sender with ⟨s1, odS⟩
  rw [hge1] at hbS htS
  cases odS with
  | none =>
    dsimp only
    left
    exact ⟨hbS, htS⟩
  | some se =>
    dsimp only
    have h2S : (getUserEconomy now s sender).2 = some se := by rw [hge1]
    obtain ⟨hselfS, hothersS, ds0, hds0, hse⟩ := getUserEconomy_snd_some h2S
    rw [hge1] at hselfS hothersS
    dsimp only at hselfS hothersS
    have hfS := checkReset_fields now ds0
    by_cases hinsuf : se.pocket_balance < amount
    · rw [if_pos hinsuf]
      left
      exact ⟨hbS, htS⟩
    rw [if_neg hinsuf]
    have hbR := getUserEconomy_balancesOf now s1 receiver u
    have htR := getUserEconomy_totalsOf now s1 receiver u
    rcases hge2 : getUserEconomy now s1 receiver with ⟨s2, odR⟩
    rw [hge2] at hbR htR
    cases odR with
    | none =>
      dsimp only
      left
      exact ⟨hbR.trans hbS, htR.trans htS⟩
    | some re =>
      dsimp only
      have h2R : (getUserEconomy now s1 receiver).2 = some re := by rw [hge2]
      obtain ⟨hselfR, hothersR, dr0, hdr0, hre⟩ := getUserEconomy_snd_some h2R
      rw [hge2] at hselfR hothersR
      dsimp only at hselfR hothersR
      have hfR := checkReset_fields now dr0
      have hrecv : s.econ receiver = some dr0 := by
        rw [← hothersS receiver (fun h => hsr h.symm)]
        exact hdr0
      rcases saveEcon_cases s2 sender
          (addTransaction now
            { se with
              pocket_balance := se.pocket_balance - amount,
              total_spent := se.total_spent + amount }
            .transfer_send (-amount) "Transfer to user")
        with ⟨hok1, hecon1⟩ | ⟨hok1, hecon1⟩
      · rw [hok1, if_pos rfl]
        rcases saveEcon_econ_or
            ((saveEcon s2 sender
              (addTransaction now
                { se with
                  pocket_balance := se.pocket_balance - amount,
                  total_spent := se.total_spent + amount }
                .transfer_send (-amount) "Transfer to user")).1)
            receiver
            (addTransaction now
              { re with
                pocket_balance := re.pocket_balance + amount,
                total_earned := re.total_earned + amount }
              .transfer_receive amount "Transfer from user") u
          with hkeep2 | ⟨hu2, hnew2⟩
        · rw [hkeep2, hecon1]
          dsimp only
          by_cases hu : u = sender
          · subst hu
            subst hse
            rw [(checkReset_fields now ds0).1] at hinsuf
            right
            left
            rw [if_pos rfl]
            refine ⟨rfl, by omega, ds0, _, hds0, rfl, by omega,
              ?_, ?_, ?_, ?_,
              addTransaction_append now _ .transfer_send (-amount) _⟩
            · rw [(addTransaction_fields now _ _ _ _).1,
                (set_pocket_spent_fields _ _ _).1, hfS.1]
            · rw [(addTransaction_fields now _ _ _ _).2.1,
                (set_pocket_spent_fields _ _ _).2.1, hfS.2.1]
            · rw [(addTransaction_fields now _ _ _ _).2.2.2.1,
                (set_pocket_spent_fields _ _ _).2.2.1, hfS.2.2.2.2.1]
            · rw [(addTransaction_fields now _ _ _ _).2.2.1,
                (set_pocket_spent_fields _ _ _).2.2.2, hfS.2.2.2.1]
          · left
            rw [if_neg hu]
            exact ⟨hbR.trans hbS, htR.trans htS⟩
        · right
          right
          subst hu2
          subst hre
          refine ⟨rfl, by omega, dr0, _, hrecv, hnew2,
            ?_, ?_, ?_, ?_,
            addTransaction_append now _ .transfer_receive amount _⟩
          · rw [(addTransaction_fields now _ _ _ _).1,
              (set_pocket_earned_fields _ _ _).1, hfR.1]
          · rw [(addTransaction_fields now _ _ _ _).2.1,
              (set_pocket_earned_fields _ _ _).2.1, hfR.2.1]
          · rw [(addTransaction_fields now _ _ _ _).2.2.1,
              (set_pocket_earned_fields _ _ _).2.2.1, hfR.2.2.2.1]
          · rw [(addTransaction_fields now _ _ _ _).2.2.2.1,
              (set_pocket_earned_fields _ _ _).2.2.2, hfR.2.2.2.2.1]
      · rw [hok1, if_neg (by decide)]
        rw [hecon1]
        left
        exact ⟨hbR.trans hbS, htR.trans htS⟩

lemma set_tax_earned (d : EconomyData) (x y : Int) (b : Nat) :
    ({ d with pocket_balance := x, total_taxes_paid := y, tax_bracket := b } :
      EconomyData).total_earned = d.total_earned := rfl

lemma set_tax_spent (d : EconomyData) (x y : Int) (b : Nat) :
    ({ d with pocket_balance := x, total_taxes_paid := y, tax_bracket := b } :
      EconomyData).total_spent = d.total_spent := rfl

/-- `apply_tax` never changes lifetime-earned or lifetime-spent of any
record (it deducts from the pocket and bumps taxes-paid only). -/
lemma applyTax_totals (now : Tstamp) (s : LedgerState) (uid : Nat)
    (income : Int) (u : Nat) :
    totalsOf ((applyTax now s uid income).1.econ u) = totalsOf (s.econ u)
    := by
  unfold applyTax
  have ht := getUserEconomy_totalsOf now s uid u
  rcases hge : getUserEconomy now s uid with ⟨s1, od⟩
  rw [hge] at ht
  cases od with
  | none => exact ht
  | some d1 =>
    dsimp only
    have h2 : (getUserEconomy now s uid).2 = some d1 := by rw [hge]
    obtain ⟨hself, hothers, d0, hd0, hd1⟩ := getUserEconomy_snd_some h2
    rw [hge] at hself hothers
    dsimp only at hself hothers
    have hf := checkReset_fields now d0
    by_cases htax : (0 : Int) <
        pyInt ((income : ℚ) *
          (calculateTaxBracket (d1.pocket_balance + d1.bank_balance)).rate)
    · rw [if_pos htax]
      rcases saveEcon_cases s1 uid
          (addTransaction now
            { d1 with
              pocket_balance := d1.pocket_balance -
                pyInt ((income : ℚ) *
                  (calculateTaxBracket
                    (d1.pocket_balance + d1.bank_balance)).rate),
              total_taxes_paid := d1.total_taxes_paid +
                pyInt ((income : ℚ) *
                  (calculateTaxBracket
                    (d1.pocket_balance + d1.bank_balance)).rate),
              tax_bracket :=
                (calculateTaxBracket
                  (d1.pocket_balance + d1.bank_balance)).bracket }
            .admin_remove
            (-pyInt ((income : ℚ) *
              (calculateTaxBracket
                (d1.pocket_balance + d1.bank_balance)).rate))
            "Tax payment")
        with ⟨hok, hecon⟩ | ⟨hok, hecon⟩
      · rw [hok, if_pos rfl]
        dsimp only
        rw [hecon]
        dsimp only
        by_cases hu : u = uid
        · subst hu
          rw [if_pos rfl, hd0]
          subst hd1
          simp [totalsOf, addTransaction_earned, addTransaction_spent,
            set_tax_earned, set_tax_spent, hf.2.2.2.1, hf.2.2.2.2.1]
        · rw [if_neg hu]
          exact ht
      · rw [hok, if_neg (by decide)]
        dsimp only
        rw [hecon]
        exact ht
    · rw [if_neg htax]
      exact ht

/-- Equal total projections give monotone totals. -/
lemma totalsMono_of_totalsOf_eq {a b : Option EconomyData}
    (h : totalsOf b = totalsOf a) : totalsMono a b := by
  intro d hda
  rw [hda] at h
  cases hb : b with
  | none =>
    rw [hb] at h
    exact absurd h (by simp [totalsOf])
  | some d' =>
    rw [hb] at h
    simp only [totalsOf, Option.map_some', Option.some.injEq,
      Prod.mk.injEq] at h
    exact ⟨d', rfl, le_of_eq h.1.symm, le_of_eq h.2.symm⟩

lemma set_spent_history (d : EconomyData) (v : Int) :
    ({ d with total_spent := v } : EconomyData).transaction_history =
      d.transaction_history := rfl

lemma set_earned_history (d : EconomyData) (v : Int) :
    ({ d with total_earned := v } : EconomyData).transaction_history =
      d.transaction_history := rfl

lemma set_earned_capacity (d : EconomyData) (v : Int) :
    ({ d with total_earned := v } : EconomyData).bank_capacity =
      d.bank_capacity := rfl

lemma setLoc_capacity (d : EconomyData) (loc : Location) (v : Int) :
    (setLocBalance d loc v).bank_capacity = d.bank_capacity :=
  (setLoc_fields d loc v).2.2.2

lemma saveEcon_state_nil (s : LedgerState) (f : Nat → Option EconomyData)
    (uid : Nat) (d : EconomyData) (h : s.saveFail = []) :
    saveEcon { s with econ := f } uid d =
      ({ s with econ := fun u => if u = uid then some d else f u }, true) :=
  saveEcon_nil (s := { s with econ := f }) uid d h

lemma getUserEconomy_some_cons_ok {now : Tstamp} {s : LedgerState}
    {uid : Nat} {d : EconomyData} {rest : List Bool}
    (h : s.econ uid = some d) (hs : s.saveFail = false :: rest) :
    getUserEconomy now s uid =
      ({ s with saveFail := rest, econ := fun u =>
          if u = uid then some (checkAndResetDailyWeekly now d)
          else s.econ u },
        some (checkAndResetDailyWeekly now d)) := by
  unfold getUserEconomy
  rw [h]
  dsimp only
  rw [saveEcon_cons_ok uid _ hs]

lemma getUserEconomy_state_nil (now : Tstamp) (s : LedgerState)
    (f : Nat → Option EconomyData) (uid : Nat) (d : EconomyData)
    (h : f uid = some d) (hsf : s.saveFail = []) :
    getUserEconomy now { s with econ := f } uid =
      ({ s with econ := fun u =>
          if u = uid then some (checkAndResetDailyWeekly now d)
          else f u },
        some (checkAndResetDailyWeekly now d)) :=
  getUserEconomy_some_nil (s := { s with econ := f }) h hsf

lemma getUserEconomy_state_cons_ok (now : Tstamp) (s : LedgerState)
    (f : Nat → Option EconomyData) (rest : List Bool) (uid : Nat)
    (d : EconomyData) (h : f uid = some d) :
    getUserEconomy now { s with econ := f, saveFail := false :: rest } uid =
      ({ s with saveFail := rest, econ := fun u =>
          if u = uid then some (checkAndResetDailyWeekly now d)
          else f u },
        some (checkAndResetDailyWeekly now d)) :=
  getUserEconomy_some_cons_ok
    (s := { s with econ := f, saveFail := false :: rest }) h rfl

lemma saveEcon_state_cons_ok (s : LedgerState)
    (f : Nat → Option EconomyData) (rest : List Bool) (uid : Nat)
    (d : EconomyData) :
    saveEcon { s with econ := f, saveFail := false :: rest } uid d =
      ({ s with saveFail := rest, econ := fun u =>
          if u = uid then some d else f u }, true) :=
  saveEcon_cons_ok (s := { s with econ := f, saveFail := false :: rest })
    uid d rfl

lemma saveEcon_state_cons_fail (s : LedgerState)
    (f : Nat → Option EconomyData) (rest : List Bool) (uid : Nat)
    (d : EconomyData) :
    saveEcon { s with econ := f, saveFail := true :: rest } uid d =
      ({ s with econ := f, saveFail := rest }, false) :=
  saveEcon_cons_fail (s := { s with econ := f, saveFail := true :: rest })
    uid d rfl

/-! Helper lemmas for the gambling, crime and rob operations. -/

lemma pyInt_eq_floor {q : ℚ} (h : 0 ≤ q) : pyInt q = ⌊q⌋ := by
  unfold pyInt
  rw [Int.tdiv_eq_ediv (Rat.num_nonneg.mpr h) (Int.ofNat_nonneg q.den),
    Rat.floor_def]

lemma pyInt_nonneg {q : ℚ} (h : 0 ≤ q) : 0 ≤ pyInt q := by
  rw [pyInt_eq_floor h]
  exact Int.floor_nonneg.mpr h

lemma pyInt_le_of_le {q : ℚ} {n : ℤ} (h0 : 0 ≤ q) (h : q ≤ (n : ℚ)) :
    pyInt q ≤ n := by
  rw [pyInt_eq_floor h0]
  have h2 := Int.floor_le_floor h
  rwa [Int.floor_intCast] at h2

lemma saveEcon_prestige (s : LedgerState) (uid : Nat) (d : EconomyData) :
    (saveEcon s uid d).1.prestige = s.prestige := by
  unfold saveEcon popSave
  cases s.saveFail with
  | nil => rfl
  | cons b rest => cases b <;> rfl

lemma saveEffects_econ (s : LedgerState) (uid : Nat) (e : ActiveEffects) :
    (saveEffects s uid e).1.econ = s.econ := by
  unfold saveEffects popSave
  cases s.saveFail with
  | nil => rfl
  | cons b rest => cases b <;> rfl

lemma saveEffects_prestige (s : LedgerState) (uid : Nat)
    (e : ActiveEffects) : (saveEffects s uid e).1.prestige = s.prestige := by
  unfold saveEffects popSave
  cases s.saveFail with
  | nil => rfl
  | cons b rest => cases b <;> rfl

lemma saveInventory_econ (s : LedgerState) (uid : Nat)
    (inv : UserInventory) : (saveInventory s uid inv).1.econ = s.econ := by
  unfold saveInventory popSave
  cases s.saveFail with
  | nil => rfl
  | cons b rest => cases b <;> rfl

lemma saveInventory_prestige (s : LedgerState) (uid : Nat)
    (inv : UserInventory) :
    (saveInventory s uid inv).1.prestige = s.prestige := by
  unfold saveInventory popSave
  cases s.saveFail with
  | nil => rfl
  | cons b rest => cases b <;> rfl

lemma getUserActiveEffects_econ (now : Tstamp) (s : LedgerState)
    (uid : Nat) : (getUserActiveEffects now s uid).1.econ = s.econ := by
  unfold getUserActiveEffects
  cases s.effects uid with
  | none => rfl
  | some eff =>
    dsimp only
    exact saveEffects_econ s uid (cleanExpiredEffects now eff)

lemma getUserActiveEffects_prestige (now : Tstamp) (s : LedgerState)
    (uid : Nat) :
    (getUserActiveEffects now s uid).1.prestige = s.prestige := by
  unfold getUserActiveEffects
  cases s.effects uid with
  | none => rfl
  | some eff =>
    dsimp only
    exact saveEffects_prestige s uid (cleanExpiredEffects now eff)

lemma getUserInventory_econ (s : LedgerState) (uid : Nat) :
    (getUserInventory s uid).1.econ = s.econ := by
  unfold getUserInventory
  cases s.inventory uid with
  | none => rfl
  | some inv =>
    dsimp only
    exact saveInventory_econ s uid (updateInventoryValue inv)

lemma getUserInventory_prestige (s : LedgerState) (uid : Nat) :
    (getUserInventory s uid).1.prestige = s.prestige := by
  unfold getUserInventory
  cases s.inventory uid with
  | none => rfl
  | some inv =>
    dsimp only
    exact saveInventory_prestige s uid (updateInventoryValue inv)

lemma calculateTotalMultipliers_econ
    (catalog : String → Option (List (String × ℚ))) (now : Tstamp)
    (s : LedgerState) (uid : Nat) :
    (calculateTotalMultipliers catalog now s uid).1.econ = s.econ := by
  unfold calculateTotalMultipliers
  dsimp only
  rw [getUserInventory_econ, getUserActiveEffects_econ]

lemma calculateTotalMultipliers_prestige
    (catalog : String → Option (List (String × ℚ))) (now : Tstamp)
    (s : LedgerState) (uid : Nat) :
    (calculateTotalMultipliers catalog now s uid).1.prestige =
      s.prestige := by
  unfold calculateTotalMultipliers
  dsimp only
  rw [getUserInventory_prestige, getUserActiveEffects_prestige]

lemma getUserEconomy_prestige (now : Tstamp) (s : LedgerState) (uid : Nat) :
    (getUserEconomy now s uid).1.prestige = s.prestige := by
  unfold getUserEconomy
  cases s.econ uid with
  | none => rfl
  | some d =>
    dsimp only
    rcases hsv : saveEcon s uid (checkAndResetDailyWeekly now d)
      with ⟨s1, ok⟩
    have hp := saveEcon_prestige s uid (checkAndResetDailyWeekly now d)
    rw [hsv] at hp
    cases ok with
    | true =>
      dsimp only
      exact hp
    | false =>
      dsimp only
      exact hp

lemma calculatePrestigeBonus_congr {s t : LedgerState} (uid : Nat)
    (base : Int) (h : s.prestige = t.prestige) :
    calculatePrestigeBonus s uid base =
      calculatePrestigeBonus t uid base := by
  unfold calculatePrestigeBonus
  rw [h]

/-- Saving after whatever balance-preserving steps either keeps every
balance pair or installs exactly the saved record at the target user. -/
lemma saveEcon_balances_post (sPre sMid : LedgerState) (uid u : Nat)
    (D : EconomyData)
    (hb : balancesOf (sMid.econ u) = balancesOf (sPre.econ u)) :
    balancesOf ((saveEcon sMid uid D).1.econ u) =
      balancesOf (sPre.econ u) ∨
    (u = uid ∧ (saveEcon sMid uid D).1.econ u = some D) := by
  rcases saveEcon_econ_or sMid uid D u with hkeep | ⟨hu, hnew⟩
  · left
    rw [hkeep]
    exact hb
  · right
    exact ⟨hu, hnew⟩

/-- Post-state of `gamble_money`: every record either keeps its balance
pair, or is the explicitly rewritten record of the gambler, whose pocket
covered the bet and moved by a non-negative payout net of the bet. -/
lemma gambleMoney_post (now : Tstamp) (s : LedgerState) (uid : Nat)
    (bet : Int) (win : Bool) (u : Nat) :
    balancesOf ((gambleMoney now s uid bet win).1.econ u) =
      balancesOf (s.econ u) ∨
    (u = uid ∧ ∃ d d' w,
      s.econ uid = some d ∧
      (gambleMoney now s uid bet win).1.econ u = some d' ∧
      0 ≤ w ∧ 0 < bet ∧ bet ≤ d.pocket_balance ∧
      d'.pocket_balance = d.pocket_balance - bet + w ∧
      d'.bank_balance = d.bank_balance) := by
  unfold gambleMoney
  by_cases hbet : bet < minBet ∨ maxBet < bet
  · rw [if_pos hbet]
    left
    rfl
  · rw [if_neg hbet]
    push_neg at hbet
    have hb := getUserEconomy_balancesOf now s uid u
    rcases hge : getUserEconomy now s uid with ⟨s1, od⟩
    rw [hge] at hb
    dsimp only at hb
    cases od with
    | none =>
      dsimp only
      left
      exact hb
    | some d1 =>
      dsimp only
      have h2 : (getUserEconomy now s uid).2 = some d1 := by rw [hge]
      obtain ⟨hself, hothers, d0, hd0, hd1⟩ := getUserEconomy_snd_some h2
      subst hd1
      have hbp : (10 : Int) ≤ bet := by
        have h10 := hbet.1
        rw [show minBet = (10 : Int) from rfl] at h10
        exact h10
      by_cases hins : (checkAndResetDailyWeekly now d0).pocket_balance < bet
      · rw [if_pos hins]
        left
        exact hb
      · rw [if_neg hins]
        rw [(checkReset_fields now d0).1] at hins
        have hcov := not_lt.mp hins
        by_cases hwin : win = true
        · rw [if_pos hwin]
          dsimp only
          refine Or.imp (fun h => h) (fun hc => ?_)
            (saveEcon_balances_post s _ uid u _ ?_)
          · obtain ⟨hu, hnew⟩ := hc
            subst hu
            refine ⟨rfl, d0, _, pyInt ((bet : ℚ) * (9/5)), hd0, hnew,
              ?_, by omega, hcov, ?_, ?_⟩
            · refine pyInt_nonneg (mul_nonneg ?_ (by norm_num))
              exact_mod_cast (by omega : (0 : Int) ≤ bet)
            · rw [(addTransaction_fields now _ _ _ _).1]
              dsimp only
              rw [(checkReset_fields now d0).1]
              omega
            · rw [(addTransaction_fields now _ _ _ _).2.1]
              dsimp only
              rw [(checkReset_fields now d0).2.1]
          · exact hb
        · rw [if_neg hwin]
          dsimp only
          refine Or.imp (fun h => h) (fun hc => ?_)
            (saveEcon_balances_post s _ uid u _ ?_)
          · obtain ⟨hu, hnew⟩ := hc
            subst hu
            refine ⟨rfl, d0, _, 0, hd0, hnew, le_refl 0, by omega, hcov,
              ?_, ?_⟩
            · rw [(addTransaction_fields now _ _ _ _).1]
              dsimp only
              rw [(checkReset_fields now d0).1]
              omega
            · rw [(addTransaction_fields now _ _ _ _).2.1]
              dsimp only
              rw [(checkReset_fields now d0).2.1]
          · exact hb

/-- Post-state of `commit_crime`: every record either keeps its balance
pair, or is the rewritten record of the criminal, credited with the
prestige-scaled reward or debited by the capped twenty-percent fine. -/
lemma commitCrime_post (catalog : String → Option (List (String × ℚ)))
    (now : Tstamp) (s : LedgerState) (uid : Nat) (ctype : String)
    (success : Bool) (reward : Int) (u : Nat) :
    balancesOf ((commitCrime catalog now s uid ctype success
        reward).1.econ u) = balancesOf (s.econ u) ∨
    (u = uid ∧ ∃ d d',
      s.econ uid = some d ∧
      (commitCrime catalog now s uid ctype success reward).1.econ u =
        some d' ∧
      d'.bank_balance = d.bank_balance ∧
      (d'.pocket_balance =
          d.pocket_balance + calculatePrestigeBonus s uid reward ∨
       d'.pocket_balance = d.pocket_balance -
          min (pyInt ((d.pocket_balance : ℚ) * (1/5)))
            (crimeConfig ctype).2)) := by
  unfold commitCrime
  have hb := getUserEconomy_balancesOf now s uid u
  have hpr := getUserEconomy_prestige now s uid
  rcases hge : getUserEconomy now s uid with ⟨s1, od⟩
  rw [hge] at hb hpr
  dsimp only at hb hpr
  cases od with
  | none =>
    dsimp only
    left
    exact hb
  | some d1 =>
    dsimp only
    have h2 : (getUserEconomy now s uid).2 = some d1 := by rw [hge]
    obtain ⟨hself, hothers, d0, hd0, hd1⟩ := getUserEconomy_snd_some h2
    have hbe : balancesOf
        ((calculateTotalMultipliers catalog now s1 uid).1.econ u) =
        balancesOf (s.econ u) := by
      rw [calculateTotalMultipliers_econ]
      exact hb
    have hpb : calculatePrestigeBonus
        (calculateTotalMultipliers catalog now s1 uid).1 uid reward =
        calculatePrestigeBonus s uid reward :=
      calculatePrestigeBonus_congr uid reward
        (by rw [calculateTotalMultipliers_prestige, hpr])
    by_cases hsc : success = true
    · rw [if_pos hsc]
      dsimp only
      refine Or.imp (fun h => h) (fun hc => ?_)
        (saveEcon_balances_post s _ uid u _ ?_)
      · obtain ⟨hu, hnew⟩ := hc
        subst hu
        subst hd1
        refine ⟨rfl, d0, _, hd0, hnew, ?_, Or.inl ?_⟩
        · rw [(addTransaction_fields now _ _ _ _).2.1]
          dsimp only
          rw [(checkReset_fields now d0).2.1]
        · rw [(addTransaction_fields now _ _ _ _).1]
          dsimp only
          rw [(checkReset_fields now d0).1, hpb]
      · exact hbe
    · rw [if_neg hsc]
      dsimp only
      refine Or.imp (fun h => h) (fun hc => ?_)
        (saveEcon_balances_post s _ uid u _ ?_)
      · obtain ⟨hu, hnew⟩ := hc
        subst hu
        subst hd1
        refine ⟨rfl, d0, _, hd0, hnew, ?_, Or.inr ?_⟩
        · rw [(addTransaction_fields now _ _ _ _).2.1]
          dsimp only
          rw [(checkReset_fields now d0).2.1]
        · rw [(addTransaction_fields now _ _ _ _).1]
          dsimp only
          rw [(checkReset_fields now d0).1]
      · exact hbe

/-- Post-state of `rob_user`: every record either keeps its balance pair,
or is the debited record of the target (who held at least the rob
minimum), or is the robber's record, credited with the stolen amount or
debited by the pocket-capped penalty. -/
lemma robUser_post (catalog : String → Option (List (String × ℚ)))
    (now : Tstamp) (s : LedgerState) (robber target : Nat)
    (success : Bool) (stolen penalty : Int) (u : Nat) :
    balancesOf ((robUser catalog now s robber target success stolen
        penalty).1.econ u) = balancesOf (s.econ u) ∨
    (u = target ∧ success = true ∧ ∃ d d',
      s.econ target = some d ∧
      (robUser catalog now s robber target success stolen
        penalty).1.econ u = some d' ∧
      robMinAmount ≤ d.pocket_balance ∧
      d'.pocket_balance = d.pocket_balance - stolen ∧
      d'.bank_balance = d.bank_balance) ∨
    (u = robber ∧ ∃ d d',
      s.econ robber = some d ∧
      (robUser catalog now s robber target success stolen
        penalty).1.econ u = some d' ∧
      d'.bank_balance = d.bank_balance ∧
      ((success = true ∧
        d'.pocket_balance = d.pocket_balance + stolen) ∨
       d'.pocket_balance =
         d.pocket_balance - min penalty d.pocket_balance)) := by
  unfold robUser
  by_cases heq : robber = target
  · rw [if_pos heq]
    left
    rfl
  rw [if_neg heq]
  have hbR := getUserEconomy_balancesOf now s robber u
  rcases hge1 : getUserEconomy now s robber with ⟨s1, odR⟩
  rw [hge1] at hbR
  dsimp only at hbR
  cases odR with
  | none =>
    dsimp only
    left
    rw [getUserEconomy_balancesOf now s1 target u]
    exact hbR
  | some dRe =>
    dsimp only
    have h2R : (getUserEconomy now s robber).2 = some dRe := by rw [hge1]
    obtain ⟨hselfR, hothersR, dR0, hdR0, hdRe⟩ := getUserEconomy_snd_some h2R
    rw [hge1] at hselfR hothersR
    dsimp only at hselfR hothersR
    have hbT := getUserEconomy_balancesOf now s1 target u
    rcases hge2 : getUserEconomy now s1 target with ⟨s2, odT⟩
    rw [hge2] at hbT
    dsimp only at hbT
    cases odT with
    | none =>
      dsimp only
      left
      exact hbT.trans hbR
    | some dTe =>
      dsimp only
      have h2T : (getUserEconomy now s1 target).2 = some dTe := by rw [hge2]
      obtain ⟨hselfT, hothersT, dT0, hdT0, hdTe⟩ :=
        getUserEconomy_snd_some h2T
      rw [hge2] at hselfT hothersT
      dsimp only at hselfT hothersT
      have hdT0s : s.econ target = some dT0 := by
        rw [← hothersR target (fun h => heq h.symm)]
        exact hdT0
      by_cases hguard : dTe.pocket_balance < robMinAmount
      · rw [if_pos hguard]
        left
        exact hbT.trans hbR
      rw [if_neg hguard]
      have hbe : balancesOf
          (((calculateTotalMultipliers catalog now
            (calculateTotalMultipliers catalog now s2 robber).1
            target).1).econ u) = balancesOf (s.econ u) := by
        rw [calculateTotalMultipliers_econ, calculateTotalMultipliers_econ]
        exact hbT.trans hbR
      by_cases hsc : success = true
      · rw [if_pos hsc]
        by_cases hms : pyInt ((dTe.pocket_balance : ℚ) * (3/10)) <
            robMinAmount
        · rw [if_pos hms]
          left
          exact hbe
        rw [if_neg hms]
        rcases saveEcon_cases
            (calculateTotalMultipliers catalog now
              (calculateTotalMultipliers catalog now s2 robber).1
              target).1 target
            (addTransaction now
              { dTe with
                pocket_balance := dTe.pocket_balance - stolen,
                times_robbed := dTe.times_robbed + 1 }
              .admin_remove (-stolen) "Robbed")
          with ⟨hok1, hecon1⟩ | ⟨hok1, hecon1⟩
        · rw [hok1, if_pos rfl]
          rcases saveEcon_econ_or
              ((saveEcon
                (calculateTotalMultipliers catalog now
                  (calculateTotalMultipliers catalog now s2 robber).1
                  target).1 target
                (addTransaction now
                  { dTe with
                    pocket_balance := dTe.pocket_balance - stolen,
                    times_robbed := dTe.times_robbed + 1 }
                  .admin_remove (-stolen) "Robbed")).1)
              robber
              (addTransaction now
                { dRe with
                  pocket_balance := dRe.pocket_balance + stolen,
                  total_earned := dRe.total_earned + stolen,
                  total_robs := dRe.total_robs + 1,
                  successful_robs := dRe.successful_robs + 1 }
                .transfer_receive stolen "Robbed user") u
            with hkeep2 | ⟨hu2, hnew2⟩
          · rw [hkeep2, hecon1]
            dsimp only
            by_cases hu : u = target
            · subst hu
              subst hdTe
              rw [(checkReset_fields now dT0).1] at hguard
              right
              left
              rw [if_pos rfl]
              refine ⟨rfl, hsc, dT0, _, hdT0s, rfl, not_lt.mp hguard,
                ?_, ?_⟩
              · rw [(addTransaction_fields now _ _ _ _).1]
                dsimp only
                rw [(checkReset_fields now dT0).1]
              · rw [(addTransaction_fields now _ _ _ _).2.1]
                dsimp only
                rw [(checkReset_fields now dT0).2.1]
            · left
              rw [if_neg hu]
              exact hbe
          · right
            right
            subst hu2
            subst hdRe
            refine ⟨rfl, dR0, _, hdR0, hnew2, ?_, Or.inl ⟨hsc, ?_⟩⟩
            · rw [(addTransaction_fields now _ _ _ _).2.1]
              dsimp only
              rw [(checkReset_fields now dR0).2.1]
            · rw [(addTransaction_fields now _ _ _ _).1]
              dsimp only
              rw [(checkReset_fields now dR0).1]
        · rw [hok1, if_neg (by decide)]
          dsimp only
          rw [hecon1]
          left
          exact hbe
      · rw [if_neg hsc]
        dsimp only
        rcases saveEcon_cases
            (calculateTotalMultipliers catalog now
              (calculateTotalMultipliers catalog now s2 robber).1
              target).1 robber
            (addTransaction now
              { dRe with
                pocket_balance := dRe.pocket_balance -
                  min penalty dRe.pocket_balance,
                total_spent := dRe.total_spent +
                  min penalty dRe.pocket_balance,
                total_robs := dRe.total_robs + 1 }
              .spend_shop (-(min penalty dRe.pocket_balance)) "Failed rob")
          with ⟨hok, hecon⟩ | ⟨hok, hecon⟩
        · rw [hecon]
          dsimp only
          by_cases hu : u = robber
          · subst hu
            subst hdRe
            right
            right
            rw [if_pos rfl]
            refine ⟨rfl, dR0, _, hdR0, rfl, ?_, Or.inr ?_⟩
            · rw [(addTransaction_fields now _ _ _ _).2.1]
              dsimp only
              rw [(checkReset_fields now dR0).2.1]
            · rw [(addTransaction_fields now _ _ _ _).1]
              dsimp only
              rw [(checkReset_fields now dR0).1]
          · left
            rw [if_neg hu]
            exact hbe
        · rw [hecon]
          left
          exact hbe

/-! Claim theorems. -/

/-- C7 counterexample: two concurrent `update_user_data` increment calls on
the same key, interleaved as read-read-write-write (which the per-call
locking of `get_user_data` and `save_user_data` permits, since no lock is
held across the read-modify-write), leave the counter at its starting value
plus one -- strictly less than plus two, so the no-lost-updates property
fails as stated. -/
theorem lost_update_cex :
    runUpdates 0 (fun _ => ⟨0, 0⟩) [0, 1, 0, 1] = 0 + 1 ∧
    (0 + 1 : Int) ≠ 0 + 2 :=
  ⟨rfl, by decide⟩

/-- C7 amended: `update_user_data` performs its read inside one lock
acquisition and its write inside a second one, holding nothing across the
read-modify-write; when the N increment calls happen to run serialized (each
completes before the next starts) the counter does end at start + N, but
interleaved schedules can lose updates. -/
theorem updateFields_serialized_adds_n (n : Nat) (c : Int) :
    runUpdates c (fun _ => ⟨0, 0⟩) (seqSchedule 0 n) = c + n :=
  runUpdates_seq n 0 c _ (fun _ _ => rfl)

/-- C9: when an entity has no economy record, `get_balance` returns the pair
(0, 0) rather than an error, and an entity whose record genuinely holds zero
in both pools gets the same answer, so the two cases are indistinguishable
to the caller. -/
theorem getBalance_missing_returns_zero (now : Tstamp) (s : LedgerState)
    (uid zid : Nat) (z : EconomyData)
    (hmiss : s.econ uid = none) (hz : s.econ zid = some z)
    (hzp : z.pocket_balance = 0) (hzb : z.bank_balance = 0)
    (hs : s.saveFail = []) :
    (getBalance now s uid).2 = (0, 0) ∧ (getBalance now s zid).2 = (0, 0) := by
  constructor
  · unfold getBalance
    rw [getUserEconomy_none hmiss]
  · unfold getBalance
    rw [getUserEconomy_some_nil hz hs]
    dsimp only
    obtain ⟨hp, hb, -, -, -, -⟩ := checkReset_fields now z
    rw [hp, hb, hzp, hzb]

/-- Witness for C9 at a concrete store: user 7 has no record, user 3 has a
zero-balance record; both queries answer (0, 0). -/
theorem getBalance_missing_returns_zero_witness :
    (getBalance ts0 stWithZero 7).2 = (0, 0) ∧
    (getBalance ts0 stWithZero 3).2 = (0, 0) :=
  getBalance_missing_returns_zero ts0 stWithZero 7 3 econZero rfl rfl rfl rfl
    rfl

/-- C10: reading the ledger record is not read-only: every
`get_user_economy` call on an existing record runs the reset check and saves
the result back to the store, and the saved record has its daily, weekly and
work-cooldown flags cleared whenever the corresponding boundary has
passed. -/
theorem getUserEconomy_read_rewrites (now : Tstamp) (s : LedgerState)
    (uid : Nat) (d : EconomyData)
    (h : s.econ uid = some d) (hs : s.saveFail = []) :
    (getUserEconomy now s uid).2 = some (checkAndResetDailyWeekly now d) ∧
    (getUserEconomy now s uid).1.econ uid =
      some (checkAndResetDailyWeekly now d) ∧
    (∀ t, d.last_daily_time = some t → t.dateId ≠ now.dateId →
      (checkAndResetDailyWeekly now d).daily_bonus_claimed = false ∧
      (checkAndResetDailyWeekly now d).daily_work_used = false) ∧
    (∀ t, d.last_weekly_time = some t → now.week ≠ t.week →
      (checkAndResetDailyWeekly now d).weekly_bonus_claimed = false) ∧
    (∀ t, d.last_work_time = some t →
      (now.seconds : Int) - (t.seconds : Int) ≥ workCooldownHours * 3600 →
      (checkAndResetDailyWeekly now d).daily_work_used = false) := by
  refine ⟨?_, ?_, ?_, ?_, ?_⟩
  · rw [getUserEconomy_some_nil h hs]
  · rw [getUserEconomy_some_nil h hs]
    simp
  · intro t ht hne
    exact checkReset_daily_cleared now d t ht hne
  · intro t ht hne
    exact checkReset_weekly_cleared now d t ht hne
  · intro t ht hcool
    exact checkReset_work_cleared now d t ht hcool

/-- Witness for C10: user 1 of `stAllClaimed` claimed everything at `ts0`;
a balance read at `tsLater` rewrites the stored record and the rewritten
record has all three flags cleared. -/
theorem getUserEconomy_read_rewrites_witness :
    (getUserEconomy tsLater stAllClaimed 1).1.econ 1 =
      some (checkAndResetDailyWeekly tsLater econAllClaimed) ∧
    (checkAndResetDailyWeekly tsLater econAllClaimed).daily_bonus_claimed
      = false ∧
    (checkAndResetDailyWeekly tsLater econAllClaimed).weekly_bonus_claimed
      = false ∧
    (checkAndResetDailyWeekly tsLater econAllClaimed).daily_work_used
      = false := by
  obtain ⟨-, h1, h2, h3, h4⟩ :=
    getUserEconomy_read_rewrites tsLater stAllClaimed 1 econAllClaimed rfl rfl
  exact ⟨h1, (h2 ts0 rfl (by decide)).1, h3 ts0 rfl (by decide),
    h4 ts0 rfl (by decide)⟩

/-- C5 amended: the lifetime totals are monotonically non-decreasing across
the credit, debit, transfer, deposit, withdraw and tax operations of the
Ledger Engine; the exception is `prestige_user`, which resets them (see the
counterexample). -/
theorem lifetime_totals_monotone (now : Tstamp) (s : LedgerState) (u : Nat) :
    (∀ uid amount loc tt desc, totalsMono (s.econ u)
      ((addMoney now s uid amount loc tt desc).1.econ u)) ∧
    (∀ uid amount loc tt desc, totalsMono (s.econ u)
      ((removeMoney now s uid amount loc tt desc).1.econ u)) ∧
    (∀ sender receiver amount, totalsMono (s.econ u)
      ((transferMoney now s sender receiver amount).1.econ u)) ∧
    (∀ uid amount, totalsMono (s.econ u)
      ((depositToBank now s uid amount).1.econ u)) ∧
    (∀ uid amount, totalsMono (s.econ u)
      ((withdrawFromBank now s uid amount).1.econ u)) ∧
    (∀ uid income, totalsMono (s.econ u)
      ((applyTax now s uid income).1.econ u)) := by
  refine ⟨?_, ?_, ?_, ?_, ?_, ?_⟩
  · intro uid amount loc tt desc
    rcases addMoney_post now s uid amount loc tt desc u with ⟨-, ht⟩ |
      ⟨hu, ham, d, d', hd, hd', -, -, hte, hts, -⟩
    · exact totalsMono_of_totalsOf_eq ht
    · intro dd hdd
      subst hu
      rw [hd] at hdd
      injection hdd with hdd
      subst hdd
      exact ⟨d', hd', by omega, by omega⟩
  · intro uid amount loc tt desc
    rcases removeMoney_post now s uid amount loc tt desc u with ⟨-, ht⟩ |
      ⟨hu, ham, d, d', hd, hd', -, -, -, hts, hte, -⟩
    · exact totalsMono_of_totalsOf_eq ht
    · intro dd hdd
      subst hu
      rw [hd] at hdd
      injection hdd with hdd
      subst hdd
      exact ⟨d', hd', by omega, by omega⟩
  · intro sender receiver amount
    rcases transferMoney_post now s sender receiver amount u with ⟨-, ht⟩ |
      ⟨hu, ham, d, d', hd, hd', -, -, -, hts, hte, -⟩ |
      ⟨hu, ham, d, d', hd, hd', -, -, hte, hts, -⟩
    · exact totalsMono_of_totalsOf_eq ht
    · intro dd hdd
      subst hu
      rw [hd] at hdd
      injection hdd with hdd
      subst hdd
      exact ⟨d', hd', by omega, by omega⟩
    · intro dd hdd
      subst hu
      rw [hd] at hdd
      injection hdd with hdd
      subst hdd
      exact ⟨d', hd', by omega, by omega⟩
  · intro uid amount
    rcases depositToBank_post now s uid amount u with ⟨-, ht⟩ |
      ⟨hu, ham, d, d', hd, hd', -, -, -, -, -, hte, hts⟩
    · exact totalsMono_of_totalsOf_eq ht
    · intro dd hdd
      subst hu
      rw [hd] at hdd
      injection hdd with hdd
      subst hdd
      exact ⟨d', hd', by omega, by omega⟩
  · intro uid amount
    rcases withdrawFromBank_post now s uid amount u with ⟨-, ht⟩ |
      ⟨hu, ham, d, d', hd, hd', -, -, -, hte, hts⟩
    · exact totalsMono_of_totalsOf_eq ht
    · intro dd hdd
      subst hu
      rw [hd] at hdd
      injection hdd with hdd
      subst hdd
      exact ⟨d', hd', by omega, by omega⟩
  · intro uid income
    exact totalsMono_of_totalsOf_eq (applyTax_totals now s uid income u)

/-- Witness for C5: crediting 50 to user 1 leaves the lifetime totals of the
default record non-decreased. -/
theorem lifetime_totals_monotone_witness :
    ∃ d', (addMoney ts0 stTwoUsers 1 50 .pocket .admin_add
        "witness").1.econ 1 = some d' ∧
      econDefault.total_earned ≤ d'.total_earned ∧
      econDefault.total_spent ≤ d'.total_spent :=
  (lifetime_totals_monotone ts0 stTwoUsers 1).1 1 50 .pocket .admin_add
    "witness" econDefault rfl

/-- Balance-pair equality transports non-negativity. -/
lemma balancesOk_of_balancesOf_eq {a b : Option EconomyData}
    {d' : EconomyData} (h : balancesOf b = balancesOf a) (hb : b = some d')
    (ha : ∀ d, a = some d → balancesOk d) : balancesOk d' := by
  rw [hb] at h
  cases haa : a with
  | none =>
    rw [haa] at h
    exact absurd h (by simp [balancesOf])
  | some dd =>
    rw [haa] at h
    simp only [balancesOf, Option.map_some', Option.some.injEq,
      Prod.mk.injEq] at h
    have hok := ha dd haa
    unfold balancesOk at hok ⊢
    omega

/-- C4 amended: the credit, debit, transfer, deposit, withdraw, gamble,
crime and rob operations preserve non-negativity of both stored balances of
every record (no debit succeeds when it would make a balance negative;
gambling stakes at most the covered bet; the crime fine and the rob penalty
are capped by the pocket; a rob steals at most the drawn amount, itself at
most thirty percent of the target's pocket), and a debit that did not
return success leaves every stored balance unchanged.  The exceptions,
shown in the counterexample, are `apply_tax`, which can drive the on-hand
balance negative, and `add_money` to the bank, which can push the reserve
above its capacity. -/
theorem ledger_ops_nonneg (now : Tstamp) (s : LedgerState)
    (hinv : ∀ u d, s.econ u = some d → balancesOk d) :
    (∀ uid amount loc tt desc u d',
      (addMoney now s uid amount loc tt desc).1.econ u = some d' →
      balancesOk d') ∧
    (∀ uid amount loc tt desc u d',
      (removeMoney now s uid amount loc tt desc).1.econ u = some d' →
      balancesOk d') ∧
    (∀ sender receiver amount u d',
      (transferMoney now s sender receiver amount).1.econ u = some d' →
      balancesOk d') ∧
    (∀ uid amount u d',
      (depositToBank now s uid amount).1.econ u = some d' →
      balancesOk d') ∧
    (∀ uid amount u d',
      (withdrawFromBank now s uid amount).1.econ u = some d' →
      balancesOk d') ∧
    (∀ uid amount loc tt desc,
      (removeMoney now s uid amount loc tt desc).2 ≠ .ok true →
      ∀ u, balancesOf ((removeMoney now s uid amount loc tt desc).1.econ u) =
        balancesOf (s.econ u)) ∧
    (∀ uid bet win u d',
      (gambleMoney now s uid bet win).1.econ u = some d' →
      balancesOk d') ∧
    (∀ catalog uid ctype success reward u d', 0 ≤ reward →
      (∀ p, s.prestige uid = some p → 0 ≤ p.prestige_multiplier) →
      (commitCrime catalog now s uid ctype success reward).1.econ u =
        some d' → balancesOk d') ∧
    (∀ catalog robber target success stolen penalty u d',
      (success = true → robMinAmount ≤ stolen) →
      (success = true → ∀ d, s.econ target = some d →
        stolen ≤ pyInt ((d.pocket_balance : ℚ) * (3/10))) →
      (robUser catalog now s robber target success stolen
        penalty).1.econ u = some d' → balancesOk d') := by
  refine ⟨?_, ?_, ?_, ?_, ?_, ?_, ?_, ?_, ?_⟩
  · intro uid amount loc tt desc u d' hd'
    rcases addMoney_post now s uid amount loc tt desc u with ⟨hb, -⟩ |
      ⟨hu, ham, d, d'', hd, hd'', hl, ho, -, -, -⟩
    · exact balancesOk_of_balancesOf_eq hb hd' (hinv u)
    · rw [hd'] at hd''
      injection hd'' with hd''
      subst hd''
      have hok := hinv uid d hd
      unfold balancesOk at hok ⊢
      cases loc <;>
        simp only [getLocBalance, otherLoc] at hl ho <;> omega
  · intro uid amount loc tt desc u d' hd'
    rcases removeMoney_post now s uid amount loc tt desc u with ⟨hb, -⟩ |
      ⟨hu, ham, d, d'', hd, hd'', hcov, hl, ho, -, -, -⟩
    · exact balancesOk_of_balancesOf_eq hb hd' (hinv u)
    · rw [hd'] at hd''
      injection hd'' with hd''
      subst hd''
      have hok := hinv uid d hd
      unfold balancesOk at hok ⊢
      cases loc <;>
        simp only [getLocBalance, otherLoc] at hcov hl ho <;> omega
  · intro sender receiver amount u d' hd'
    rcases transferMoney_post now s sender receiver amount u with ⟨hb, -⟩ |
      ⟨hu, ham, d, d'', hd, hd'', hcov, hp, hbk, -, -, -⟩ |
      ⟨hu, ham, d, d'', hd, hd'', hp, hbk, -, -, -⟩
    · exact balancesOk_of_balancesOf_eq hb hd' (hinv u)
    · rw [hd'] at hd''
      injection hd'' with hd''
      subst hd''
      have hok := hinv sender d hd
      unfold balancesOk at hok ⊢
      omega
    · rw [hd'] at hd''
      injection hd'' with hd''
      subst hd''
      have hok := hinv receiver d hd
      unfold balancesOk at hok ⊢
      omega
  · intro uid amount u d' hd'
    rcases depositToBank_post now s uid amount u with ⟨hb, -⟩ |
      ⟨hu, ham, d, d'', hd, hd'', hcov, hcap, hp, hbk, -, -, -⟩
    · exact balancesOk_of_balancesOf_eq hb hd' (hinv u)
    · rw [hd'] at hd''
      injection hd'' with hd''
      subst hd''
      have hok := hinv uid d hd
      unfold balancesOk at hok ⊢
      omega
  · intro uid amount u d' hd'
    rcases withdrawFromBank_post now s uid amount u with ⟨hb, -⟩ |
      ⟨hu, ham, d, d'', hd, hd'', hcov, hbk, hp, -, -⟩
    · exact balancesOk_of_balancesOf_eq hb hd' (hinv u)
    · rw [hd'] at hd''
      injection hd'' with hd''
      subst hd''
      have hok := hinv uid d hd
      unfold balancesOk at hok ⊢
      omega
  · intro uid amount loc tt desc h u
    exact removeMoney_failed_balances now s uid amount loc tt desc h u
  · intro uid bet win u d' hd'
    rcases gambleMoney_post now s uid bet win u with hkeep |
      ⟨hu, d, d'', w, hd, hd'', hw, hb0, hcov, hpe, hbae⟩
    · exact balancesOk_of_balancesOf_eq hkeep hd' (hinv u)
    · rw [hd'] at hd''
      injection hd'' with hd''
      subst hd''
      have hok := hinv uid d hd
      unfold balancesOk at hok ⊢
      omega
  · intro catalog uid ctype success reward u d' hrw hpm hd'
    rcases commitCrime_post catalog now s uid ctype success reward u with
      hkeep | ⟨hu, d, d'', hd, hd'', hbank, hpock⟩
    · exact balancesOk_of_balancesOf_eq hkeep hd' (hinv u)
    · rw [hd'] at hd''
      injection hd'' with hd''
      subst hd''
      have hok := hinv uid d hd
      have hbonus : 0 ≤ calculatePrestigeBonus s uid reward := by
        unfold calculatePrestigeBonus
        cases hp : s.prestige uid with
        | none => exact hrw
        | some p =>
          show 0 ≤ pyInt ((reward : ℚ) * p.prestige_multiplier)
          refine pyInt_nonneg (mul_nonneg ?_ (hpm p hp))
          exact_mod_cast hrw
      have hq0 : (0 : ℚ) ≤ (d.pocket_balance : ℚ) := by
        exact_mod_cast hok.1
      have hfine : min (pyInt ((d.pocket_balance : ℚ) * (1/5)))
          (crimeConfig ctype).2 ≤ d.pocket_balance := by
        refine le_trans (min_le_left _ _) (pyInt_le_of_le ?_ ?_)
        · linarith
        · linarith
      unfold balancesOk at hok ⊢
      rcases hpock with hpe | hpe <;> omega
  · intro catalog robber target success stolen penalty u d' hsmin hsmax hd'
    rcases robUser_post catalog now s robber target success stolen penalty
      u with hkeep | ⟨hu, hsc, d, d'', hd, hd'', hmin, hpe, hbae⟩ |
      ⟨hu, d, d'', hd, hd'', hbae, hpock⟩
    · exact balancesOk_of_balancesOf_eq hkeep hd' (hinv u)
    · rw [hd'] at hd''
      injection hd'' with hd''
      subst hd''
      have hok := hinv target d hd
      have hq0 : (0 : ℚ) ≤ (d.pocket_balance : ℚ) := by
        exact_mod_cast hok.1
      have hst : stolen ≤ d.pocket_balance := by
        refine le_trans (hsmax hsc d hd) (pyInt_le_of_le ?_ ?_)
        · linarith
        · linarith
      unfold balancesOk at hok ⊢
      omega
    · rw [hd'] at hd''
      injection hd'' with hd''
      subst hd''
      have hok := hinv robber d hd
      unfold balancesOk at hok ⊢
      rcases hpock with ⟨hsc, hpe⟩ | hpe
      · have h100 := hsmin hsc
        rw [show robMinAmount = (100 : Int) from rfl] at h100
        omega
      · have hmp : min penalty d.pocket_balance ≤ d.pocket_balance :=
          min_le_right _ _
        omega

/-- Witness for C4: in the two-user store every balance is non-negative,
and after a debit of 50, a lost gamble of 50, a successful petty theft and
a failed rob attempt by user 1, every record still satisfies
non-negativity. -/
theorem ledger_ops_nonneg_witness :
    balancesOk econDefault ∧
    (∀ u d', (removeMoney ts0 stTwoUsers 1 50 .pocket .admin_remove
      "witness").1.econ u = some d' → balancesOk d') ∧
    (∀ u d', (gambleMoney ts0 stTwoUsers 1 50 false).1.econ u = some d' →
      balancesOk d') ∧
    (∀ u d', (commitCrime (fun _ => none) ts0 stTwoUsers 1 "petty_theft"
      true 300).1.econ u = some d' → balancesOk d') ∧
    (∀ u d', (robUser (fun _ => none) ts0 stTwoUsers 1 2 false 0
      500).1.econ u = some d' → balancesOk d') := by
  have hinv : ∀ u d, stTwoUsers.econ u = some d → balancesOk d := by
    intro u d hd
    unfold stTwoUsers at hd
    dsimp only at hd
    by_cases h1 : u = 1
    · rw [if_pos h1] at hd
      injection hd with hd
      subst hd
      exact ⟨by decide, by decide⟩
    · rw [if_neg h1] at hd
      by_cases h2 : u = 2
      · rw [if_pos h2] at hd
        injection hd with hd
        subst hd
        exact ⟨by decide, by decide⟩
      · rw [if_neg h2] at hd
        exact Option.noConfusion hd
  refine ⟨⟨by decide, by decide⟩, ?_, ?_, ?_, ?_⟩
  · exact fun u d' h =>
      (ledger_ops_nonneg ts0 stTwoUsers hinv).2.1 1 50 .pocket .admin_remove
        "witness" u d' h
  · exact fun u d' h =>
      (ledger_ops_nonneg ts0 stTwoUsers hinv).2.2.2.2.2.2.1 1 50 false
        u d' h
  · exact fun u d' h =>
      (ledger_ops_nonneg ts0 stTwoUsers hinv).2.2.2.2.2.2.2.1
        (fun _ => none) 1 "petty_theft" true 300 u d' (by decide)
        (fun p hp => Option.noConfusion hp) h
  · exact fun u d' h =>
      (ledger_ops_nonneg ts0 stTwoUsers hinv).2.2.2.2.2.2.2.2
        (fun _ => none) 1 2 false 0 500 u d'
        (fun hf => Bool.noConfusion hf) (fun hf => Bool.noConfusion hf) h

/-- C2 amended: `remove_money` raises `InvalidAmountError` to the caller for
amount ≤ 0 (the check sits before the `try` block) and leaves the store
unchanged; when the pool cannot cover the amount, the
`InsufficientFundsError` raised inside the `try` block is caught and the
call returns `False` -- a non-error result -- with every stored balance
unchanged; otherwise the pool decreases by the amount, lifetime-spent
increases by it, and exactly one log entry is appended (the log trimmed to
its cap). -/
theorem removeMoney_spec (now : Tstamp) (s : LedgerState) (uid : Nat)
    (amount : Int) (loc : Location) (tt : TransactionType) (desc : String)
    (d : EconomyData) (hd : s.econ uid = some d) (hs : s.saveFail = []) :
    (amount ≤ 0 →
      removeMoney now s uid amount loc tt desc =
        (s, .error .invalidAmount)) ∧
    (0 < amount → getLocBalance d loc < amount →
      (removeMoney now s uid amount loc tt desc).2 = .ok false ∧
      (∀ e, (removeMoney now s uid amount loc tt desc).2 ≠ .error e) ∧
      (∀ u, balancesOf ((removeMoney now s uid amount loc tt
        desc).1.econ u) = balancesOf (s.econ u))) ∧
    (0 < amount → amount ≤ getLocBalance d loc →
      (removeMoney now s uid amount loc tt desc).2 = .ok true ∧
      ∃ d', (removeMoney now s uid amount loc tt desc).1.econ uid =
          some d' ∧
        getLocBalance d' loc = getLocBalance d loc - amount ∧
        getLocBalance d' (otherLoc loc) = getLocBalance d (otherLoc loc) ∧
        d'.total_spent = d.total_spent + amount ∧
        d'.total_earned = d.total_earned ∧
        (∃ pre, d'.transaction_history = pre ++ [⟨now, tt, -amount, desc⟩]) ∧
        d'.transaction_history.length =
          min (d.transaction_history.length + 1) maxTransactionHistory) := by
  have hf := checkReset_fields now d
  refine ⟨?_, ?_, ?_⟩
  · intro ham
    unfold removeMoney
    rw [if_pos ham]
  · intro ham hins
    have hres : (removeMoney now s uid amount loc tt desc).2 = .ok false := by
      unfold removeMoney
      rw [if_neg (not_le.mpr ham), getUserEconomy_some_nil hd hs]
      dsimp only
      rw [if_pos (by rw [getLocBalance_checkReset]; exact hins)]
    have hne : (removeMoney now s uid amount loc tt desc).2 ≠ .ok true := by
      rw [hres]
      intro hh
      injection hh with hh
      exact Bool.noConfusion hh
    exact ⟨hres,
      fun e he => by rw [hres] at he; exact Except.noConfusion he,
      removeMoney_failed_balances now s uid amount loc tt desc hne⟩
  · intro ham hcov
    unfold removeMoney
    rw [if_neg (not_le.mpr ham), getUserEconomy_some_nil hd hs]
    dsimp only
    rw [if_neg (by rw [getLocBalance_checkReset]; exact not_lt.mpr hcov)]
    rw [saveEcon_state_nil s _ uid _ hs]
    dsimp only
    refine ⟨rfl, _, by rw [if_pos rfl], ?_, ?_, ?_, ?_,
      addTransaction_append now _ tt (-amount) desc, ?_⟩
    · rw [getLoc_addTransaction, getLoc_set_spent, getLoc_setLoc,
        getLocBalance_checkReset]
    · rw [getLoc_addTransaction, getLoc_set_spent, getLoc_setLoc_other,
        getLocBalance_checkReset]
    · rw [addTransaction_spent, set_spent_spent, (setLoc_fields _ _ _).2.1,
        hf.2.2.2.2.1]
    · rw [addTransaction_earned, set_spent_earned, (setLoc_fields _ _ _).1,
        hf.2.2.2.1]
    · rw [addTransaction_length, set_spent_history,
        (setLoc_fields _ _ _).2.2.1, hf.2.2.2.2.2]

/-- Witness for C2 amended: debiting 50 from user 1 (who holds 100 in the
pocket) succeeds, and debiting with amount 0 surfaces
`InvalidAmountError`. -/
theorem removeMoney_spec_witness :
    (removeMoney ts0 stTwoUsers 1 50 .pocket .admin_remove
      "witness").2 = .ok true ∧
    removeMoney ts0 stTwoUsers 1 0 .pocket .admin_remove "witness" =
      (stTwoUsers, .error .invalidAmount) := by
  constructor
  · exact ((removeMoney_spec ts0 stTwoUsers 1 50 .pocket .admin_remove
      "witness" econDefault rfl rfl).2.2 (by decide) (by decide)).1
  · exact (removeMoney_spec ts0 stTwoUsers 1 0 .pocket .admin_remove
      "witness" econDefault rfl rfl).1 (by decide)

/-- C3 amended: `add_money` enforces no capacity ceiling -- a positive
credit to either pool always succeeds, increasing the pool and
lifetime-earned by exactly the amount (never clamped) and appending one log
entry, even when the reserve ends above its capacity.  The ceiling is
checked only by `deposit_to_bank`, and there exceeding it produces the
non-error result `False` (the `InvalidAmountError` is caught internally),
with every stored balance unchanged. -/
theorem addMoney_no_capacity_check (now : Tstamp) (s : LedgerState)
    (uid : Nat) (amount : Int) (d : EconomyData)
    (hd : s.econ uid = some d) (hs : s.saveFail = []) :
    (0 < amount → ∀ loc tt desc,
      (addMoney now s uid amount loc tt desc).2 = .ok true ∧
      ∃ d', (addMoney now s uid amount loc tt desc).1.econ uid = some d' ∧
        getLocBalance d' loc = getLocBalance d loc + amount ∧
        getLocBalance d' (otherLoc loc) = getLocBalance d (otherLoc loc) ∧
        d'.bank_capacity = d.bank_capacity ∧
        d'.total_earned = d.total_earned + amount ∧
        d'.total_spent = d.total_spent ∧
        (∃ pre, d'.transaction_history = pre ++ [⟨now, tt, amount, desc⟩]) ∧
        d'.transaction_history.length =
          min (d.transaction_history.length + 1) maxTransactionHistory) ∧
    (0 < amount → amount ≤ d.pocket_balance →
      d.bank_capacity < d.bank_balance + amount →
      (depositToBank now s uid amount).2 = .ok false ∧
      (∀ e, (depositToBank now s uid amount).2 ≠ .error e) ∧
      (∀ u, balancesOf ((depositToBank now s uid amount).1.econ u) =
        balancesOf (s.econ u))) := by
  have hf := checkReset_fields now d
  constructor
  · intro ham loc tt desc
    unfold addMoney
    rw [if_neg (not_le.mpr ham), getUserEconomy_some_nil hd hs]
    dsimp only
    rw [saveEcon_state_nil s _ uid _ hs]
    dsimp only
    refine ⟨rfl, _, by rw [if_pos rfl], ?_, ?_, ?_, ?_, ?_,
      addTransaction_append now _ tt amount desc, ?_⟩
    · rw [getLoc_addTransaction, getLoc_set_earned, getLoc_setLoc,
        getLocBalance_checkReset]
    · rw [getLoc_addTransaction, getLoc_set_earned, getLoc_setLoc_other,
        getLocBalance_checkReset]
    · rw [(addTransaction_fields now _ _ _ _).2.2.2.2, set_earned_capacity,
        setLoc_capacity, hf.2.2.1]
    · rw [addTransaction_earned, set_earned_earned, (setLoc_fields _ _ _).1,
        hf.2.2.2.1]
    · rw [addTransaction_spent, set_earned_spent, (setLoc_fields _ _ _).2.1,
        hf.2.2.2.2.1]
    · rw [addTransaction_length, set_earned_history,
        (setLoc_fields _ _ _).2.2.1, hf.2.2.2.2.2]
  · intro ham hcov hcap
    unfold depositToBank
    rw [if_neg (not_le.mpr ham), getUserEconomy_some_nil hd hs]
    dsimp only
    rw [if_neg (by rw [hf.1]; exact not_lt.mpr hcov)]
    rw [if_pos (by rw [hf.2.2.1, hf.2.1]; exact hcap)]
    refine ⟨rfl, fun e he => Except.noConfusion he, ?_⟩
    intro u
    dsimp only
    by_cases hu : u = uid
    · subst hu
      rw [if_pos rfl, hd]
      simp [balancesOf, hf.1, hf.2.1]
    · rw [if_neg hu]

/-- Witness for C3 amended: crediting 5000 to the bank of user 1 (capacity
1000) succeeds, and a deposit of 60 with pocket 100, bank 950 and capacity
1000 returns False. -/
theorem addMoney_no_capacity_check_witness :
    (addMoney ts0 stTwoUsers 1 5000 .bank .admin_add "witness").2 =
      .ok true ∧
    (depositToBank ts0 stCapacityEdge 1 60).2 = .ok false := by
  constructor
  · exact ((addMoney_no_capacity_check ts0 stTwoUsers 1 5000 econDefault
      rfl rfl).1 (by decide) .bank .admin_add "witness").1
  · exact ((addMoney_no_capacity_check ts0 stCapacityEdge 1 60 econNearCap
      rfl rfl).2 (by decide) (by decide) (by decide)).1

/-- C1 amended: non-positive amounts and self-transfers raise
`InvalidAmountError` with the store untouched; an uncovered transfer
returns `False` with every stored balance unchanged; when every save
succeeds, the transfer debits the sender by the amount, credits the
receiver by the amount and appends a log entry on both sides.  But when the
save of the receiver raises after the save of the sender succeeded (save
schedule `[false, false, false, true]`: the two reset saves inside
`get_user_economy`, the sender save, then the failing receiver save), the
call just returns `False`: the sender stays debited, the receiver's
balances are unchanged, and no compensating re-credit is issued. -/
theorem transferMoney_spec (now : Tstamp) (s : LedgerState)
    (sender receiver : Nat) (amount : Int) (ds drcv : EconomyData) :
    ((amount ≤ 0 ∨ sender = receiver) →
      transferMoney now s sender receiver amount =
        (s, .error .invalidAmount)) ∧
    (0 < amount → sender ≠ receiver → s.econ sender = some ds →
      ds.pocket_balance < amount → s.saveFail = [] →
      (transferMoney now s sender receiver amount).2 = .ok false ∧
      ∀ u, balancesOf ((transferMoney now s sender receiver
        amount).1.econ u) = balancesOf (s.econ u)) ∧
    (0 < amount → sender ≠ receiver → s.econ sender = some ds →
      s.econ receiver = some drcv → amount ≤ ds.pocket_balance →
      s.saveFail = [] →
      (transferMoney now s sender receiver amount).2 = .ok true ∧
      ((transferMoney now s sender receiver amount).1.econ sender).map
        (·.pocket_balance) = some (ds.pocket_balance - amount) ∧
      ((transferMoney now s sender receiver amount).1.econ sender).map
        (·.bank_balance) = some ds.bank_balance ∧
      ((transferMoney now s sender receiver amount).1.econ sender).map
        (·.total_spent) = some (ds.total_spent + amount) ∧
      ((transferMoney now s sender receiver amount).1.econ receiver).map
        (·.pocket_balance) = some (drcv.pocket_balance + amount) ∧
      ((transferMoney now s sender receiver amount).1.econ receiver).map
        (·.bank_balance) = some drcv.bank_balance ∧
      ((transferMoney now s sender receiver amount).1.econ receiver).map
        (·.total_earned) = some (drcv.total_earned + amount) ∧
      (∃ p1, ((transferMoney now s sender receiver amount).1.econ
          sender).map (·.transaction_history) =
        some (p1 ++ [⟨now, .transfer_send, -amount, "Transfer to user"⟩])) ∧
      (∃ p2, ((transferMoney now s sender receiver amount).1.econ
          receiver).map (·.transaction_history) =
        some (p2 ++
          [⟨now, .transfer_receive, amount, "Transfer from user"⟩]))) ∧
    (0 < amount → sender ≠ receiver → s.econ sender = some ds →
      s.econ receiver = some drcv → amount ≤ ds.pocket_balance →
      s.saveFail = [false, false, false, true] →
      (transferMoney now s sender receiver amount).2 = .ok false ∧
      ((transferMoney now s sender receiver amount).1.econ sender).map
        (·.pocket_balance) = some (ds.pocket_balance - amount) ∧
      balancesOf ((transferMoney now s sender receiver
        amount).1.econ receiver) = balancesOf (s.econ receiver)) := by
  have hfS := checkReset_fields now ds
  have hfR := checkReset_fields now drcv
  refine ⟨?_, ?_, ?_, ?_⟩
  · intro h
    unfold transferMoney
    rcases h with h | h
    · rw [if_pos h]
    · by_cases ham : amount ≤ 0
      · rw [if_pos ham]
      · rw [if_neg ham, if_pos h]
  · intro ham hneq hds hins hs
    unfold transferMoney
    rw [if_neg (not_le.mpr ham), if_neg hneq,
      getUserEconomy_some_nil hds hs]
    dsimp only
    rw [if_pos (by rw [hfS.1]; exact hins)]
    refine ⟨rfl, ?_⟩
    intro u
    dsimp only
    by_cases hu : u = sender
    · subst hu
      rw [if_pos rfl, hds]
      simp [balancesOf, hfS.1, hfS.2.1]
    · rw [if_neg hu]
  · intro ham hneq hds hrd hcov hs
    unfold transferMoney
    rw [if_neg (not_le.mpr ham), if_neg hneq,
      getUserEconomy_some_nil hds hs]
    dsimp only
    rw [if_neg (by rw [hfS.1]; exact not_lt.mpr hcov)]
    rw [getUserEconomy_state_nil now s _ receiver drcv
      (by rw [if_neg (fun hh => hneq hh.symm), hrd]) hs]
    dsimp only
    rw [saveEcon_state_nil s _ sender _ hs]
    dsimp only
    rw [if_pos rfl]
    rw [saveEcon_state_nil s _ receiver _ hs]
    dsimp only
    refine ⟨rfl, ?_, ?_, ?_, ?_, ?_, ?_, ?_, ?_⟩
    · rw [if_neg hneq, if_pos rfl]
      simp only [Option.map_some']
      rw [(addTransaction_fields now _ _ _ _).1,
        (set_pocket_spent_fields _ _ _).1, hfS.1]
    · rw [if_neg hneq, if_pos rfl]
      simp only [Option.map_some']
      rw [(addTransaction_fields now _ _ _ _).2.1,
        (set_pocket_spent_fields _ _ _).2.1, hfS.2.1]
    · rw [if_neg hneq, if_pos rfl]
      simp only [Option.map_some']
      rw [(addTransaction_fields now _ _ _ _).2.2.2.1,
        (set_pocket_spent_fields _ _ _).2.2.1, hfS.2.2.2.2.1]
    · rw [if_pos rfl]
      simp only [Option.map_some']
      rw [(addTransaction_fields now _ _ _ _).1,
        (set_pocket_earned_fields _ _ _).1, hfR.1]
    · rw [if_pos rfl]
      simp only [Option.map_some']
      rw [(addTransaction_fields now _ _ _ _).2.1,
        (set_pocket_earned_fields _ _ _).2.1, hfR.2.1]
    · rw [if_pos rfl]
      simp only [Option.map_some']
      rw [(addTransaction_fields now _ _ _ _).2.2.1,
        (set_pocket_earned_fields _ _ _).2.2.1, hfR.2.2.2.1]
    · obtain ⟨pre, hpre⟩ := addTransaction_append now
        { checkAndResetDailyWeekly now ds with
          pocket_balance :=
            (checkAndResetDailyWeekly now ds).pocket_balance - amount,
          total_spent :=
            (checkAndResetDailyWeekly now ds).total_spent + amount }
        .transfer_send (-amount) "Transfer to user"
      refine ⟨pre, ?_⟩
      rw [if_neg hneq, if_pos rfl]
      simp only [Option.map_some']
      rw [hpre]
    · obtain ⟨pre, hpre⟩ := addTransaction_append now
        { checkAndResetDailyWeekly now drcv with
          pocket_balance :=
            (checkAndResetDailyWeekly now drcv).pocket_balance + amount,
          total_earned :=
            (checkAndResetDailyWeekly now drcv).total_earned + amount }
        .transfer_receive amount "Transfer from user"
      refine ⟨pre, ?_⟩
      rw [if_pos rfl]
      simp only [Option.map_some']
      rw [hpre]
  · intro ham hneq hds hrd hcov hs
    unfold transferMoney
    rw [if_neg (not_le.mpr ham), if_neg hneq,
      getUserEconomy_some_cons_ok hds hs]
    dsimp only
    rw [if_neg (by rw [hfS.1]; exact not_lt.mpr hcov)]
    rw [getUserEconomy_state_cons_ok now s _ _ receiver drcv
      (by rw [if_neg (fun hh => hneq hh.symm), hrd])]
    dsimp only
    rw [saveEcon_state_cons_ok s _ _ sender _]
    dsimp only
    rw [if_pos rfl]
    rw [saveEcon_state_cons_fail s _ _ receiver _]
    dsimp only
    refine ⟨rfl, ?_, ?_⟩
    · rw [if_pos rfl]
      simp only [Option.map_some']
      rw [(addTransaction_fields now _ _ _ _).1,
        (set_pocket_spent_fields _ _ _).1, hfS.1]
    · rw [if_neg (fun hh => hneq hh.symm), if_pos rfl, hrd]
      simp [balancesOf, hfR.1, hfR.2.1]

/-- Witness for C1 amended: with every save succeeding, transferring 50
from user 1 (pocket 100) to user 2 succeeds and debits the sender; with the
receiver save raising, the call returns False and the sender stays
debited. -/
theorem transferMoney_spec_witness :
    (0 : Int) < 50 ∧ (1 : Nat) ≠ 2 ∧
    stTwoUsers.econ 1 = some econDefault ∧
    stTwoUsers.econ 2 = some econDefault ∧
    (50 : Int) ≤ econDefault.pocket_balance ∧
    stTwoUsers.saveFail = [] ∧
    (transferMoney ts0 stTwoUsers 1 2 50).2 = .ok true ∧
    ((transferMoney ts0 stTwoUsers 1 2 50).1.econ 1).map
      (·.pocket_balance) = some (econDefault.pocket_balance - 50) ∧
    stReceiverSaveFails.saveFail = [false, false, false, true] ∧
    (transferMoney ts0 stReceiverSaveFails 1 2 50).2 = .ok false ∧
    ((transferMoney ts0 stReceiverSaveFails 1 2 50).1.econ 1).map
      (·.pocket_balance) = some (econDefault.pocket_balance - 50) := by
  have h3 := (transferMoney_spec ts0 stTwoUsers 1 2 50 econDefault
    econDefault).2.2.1 (by decide) (by decide) rfl rfl (by decide) rfl
  have h4 := (transferMoney_spec ts0 stReceiverSaveFails 1 2 50 econDefault
    econDefault).2.2.2 (by decide) (by decide) rfl rfl (by decide) rfl
  exact ⟨by decide, by decide, rfl, rfl, by decide, rfl, h3.1, h3.2.1,
    rfl, h4.1, h4.2.1⟩

/-- C1 counterexample: user 1 holds 100, transfers 50 to user 2, the
preconditions of the claim hold (distinct users, positive amount, enough
funds), but the save of the credited receiver raises after the save of the
debited sender succeeded.  The call returns False, yet the stored balances
show the sender debited to 50 while the receiver still holds 100: the
transfer is observably half-applied, so neither branch of the claimed
all-or-nothing disjunction holds and no compensating re-credit happened. -/
theorem transfer_half_applied_cex :
    balancesOf (stReceiverSaveFails.econ 1) = some (100, 0) ∧
    balancesOf (stReceiverSaveFails.econ 2) = some (100, 0) ∧
    (transferMoney ts0 stReceiverSaveFails 1 2 50).2 = .ok false ∧
    balancesOf ((transferMoney ts0 stReceiverSaveFails 1 2 50).1.econ 1) =
      some (50, 0) ∧
    balancesOf ((transferMoney ts0 stReceiverSaveFails 1 2 50).1.econ 2) =
      some (100, 0) ∧
    ¬ ((balancesOf ((transferMoney ts0 stReceiverSaveFails 1 2 50).1.econ 1) =
          some (50, 0) ∧
        balancesOf ((transferMoney ts0 stReceiverSaveFails 1 2 50).1.econ 2) =
          some (150, 0)) ∨
       (balancesOf ((transferMoney ts0 stReceiverSaveFails 1 2 50).1.econ 1) =
          some (100, 0) ∧
        balancesOf ((transferMoney ts0 stReceiverSaveFails 1 2 50).1.econ 2) =
          some (100, 0))) := by
  refine ⟨rfl, rfl, rfl, rfl, rfl, ?_⟩
  intro h
  rcases h with ⟨-, h⟩ | ⟨h, -⟩ <;> exact absurd h (by decide)

/-- C2 counterexample: removing 500 from a pocket holding 100 does not
surface `InsufficientFundsError` to the caller: the error is caught inside
the method and converted into the non-error result False, with the stored
balances unchanged. -/
theorem remove_insufficient_swallowed_cex :
    balancesOf (stTwoUsers.econ 1) = some (100, 0) ∧
    (removeMoney ts0 stTwoUsers 1 500 .pocket .admin_remove
      "test").2 = .ok false ∧
    (∀ e, (removeMoney ts0 stTwoUsers 1 500 .pocket .admin_remove
      "test").2 ≠ .error e) ∧
    balancesOf ((removeMoney ts0 stTwoUsers 1 500 .pocket .admin_remove
      "test").1.econ 1) = some (100, 0) := by
  refine ⟨rfl, rfl, ?_, rfl⟩
  intro e h
  rw [show (removeMoney ts0 stTwoUsers 1 500 .pocket .admin_remove
    "test").2 = .ok false from rfl] at h
  exact Except.noConfusion h

/-- C3 counterexample: user 1 has bank balance 0 with capacity 1000, yet
`add_money` with location bank happily credits 5000, returning success and
leaving the reserve at 5000, far above the capacity ceiling; no
`CapacityExceeded` failure occurs. -/
theorem addMoney_ignores_capacity_cex :
    (stTwoUsers.econ 1).map (·.bank_capacity) = some 1000 ∧
    (addMoney ts0 stTwoUsers 1 5000 .bank .admin_add "test").2 = .ok true ∧
    ((addMoney ts0 stTwoUsers 1 5000 .bank .admin_add "test").1.econ 1).map
      (·.bank_balance) = some 5000 ∧
    (∀ e, (addMoney ts0 stTwoUsers 1 5000 .bank .admin_add "test").2 ≠
      .error e) ∧
    (5000 : Int) > 1000 := by
  refine ⟨rfl, rfl, rfl, ?_, by decide⟩
  intro e h
  rw [show (addMoney ts0 stTwoUsers 1 5000 .bank .admin_add "test").2 =
    .ok true from rfl] at h
  exact Except.noConfusion h

/-- C5 counterexample: user 1 has lifetime earned 150000 and spent 5000;
`prestige_user` succeeds and resets the stored totals to 1000 and 0, so both
lifetime counters strictly decrease across this Ledger Engine operation. -/
theorem prestige_resets_totals_cex :
    totalsOf (stPrestigeReady.econ 1) = some (150000, 5000) ∧
    (prestigeUser ts0 stPrestigeReady 1 true).2 = true ∧
    totalsOf ((prestigeUser ts0 stPrestigeReady 1 true).1.econ 1) =
      some (1000, 0) ∧
    (1000 : Int) < 150000 ∧ (0 : Int) < 5000 := by
  exact ⟨rfl, rfl, rfl, by decide, by decide⟩

/-- C8 counterexample: user 1 holds an active-effects record with one
expired temporary effect; a single `calculate_total_multipliers` call
rewrites that stored record (the expired effect is dropped and last_update
bumped), so the multiplier calculation is not free of stored-state
mutation. -/
theorem multipliers_mutate_store_cex :
    (stWithEffects.effects 1).map (·.temporary_effects.length) = some 1 ∧
    ((calculateTotalMultipliers (fun _ => none) tsLater stWithEffects
        1).1.effects 1).map (·.temporary_effects.length) = some 0 ∧
    (calculateTotalMultipliers (fun _ => none) tsLater stWithEffects
        1).1.effects 1 ≠ stWithEffects.effects 1 := by
  refine ⟨rfl, rfl, ?_⟩
  intro h
  have h1 : ((calculateTotalMultipliers (fun _ => none) tsLater stWithEffects
      1).1.effects 1).map (·.temporary_effects.length) = some 0 := rfl
  rw [h] at h1
  rw [show (stWithEffects.effects 1).map (·.temporary_effects.length) =
    some 1 from rfl] at h1
  exact absurd h1 (by decide)

/-- C4 counterexample: user 1 has pocket 0 and bank 60000 (total balance in
the ten percent bracket).  Taxing an income of 1000 deducts the 100 tax from
the pocket with no balance check, leaving the stored on-hand balance at
-100: a ledger operation drives a balance negative. -/
theorem applyTax_negative_balance_cex :
    balancesOf (stRichBank.econ 1) = some (0, 60000) ∧
    (applyTax ts0 stRichBank 1 1000).2 = (100, 900) ∧
    ((applyTax ts0 stRichBank 1 1000).1.econ 1).map (·.pocket_balance) =
      some (-100) ∧
    (-100 : Int) < 0 := by
  have hge : getUserEconomy ts0 stRichBank 1 =
      ({ stRichBank with econ := fun u =>
          if u = 1 then some econRichBank else stRichBank.econ u },
        some econRichBank) := rfl
  have happ : applyTax ts0 stRichBank 1 1000 =
      ((applyTax ts0 stRichBank 1 1000).1,
        (applyTax ts0 stRichBank 1 1000).2) := rfl
  refine ⟨rfl, ?_, ?_, by decide⟩ <;>
  · unfold applyTax
    rw [hge]
    dsimp only
    rw [show calculateTaxBracket
        (econRichBank.pocket_balance + econRichBank.bank_balance) =
        ⟨3, 1/10, 50001, some 200000⟩ from rfl]
    dsimp only
    rw [show pyInt (((1000 : Int) : ℚ) * (1/10)) = 100 from by
      norm_num [pyInt]]
    rw [if_pos (by decide : (0 : Int) < 100)]
    rw [saveEcon_nil 1 _ rfl]
    rfl


/-! Corruption recovery at the file level: the snapshot sort and scan of
`_restore_from_backup`, and the recovery path of `_read_json_file`. -/

lemma insertBackup_mem {α : Type} (b x : Nat × FileContent α)
    (l : List (Nat × FileContent α)) :
    x ∈ insertBackup b l ↔ x = b ∨ x ∈ l := by
  induction l with
  | nil => simp [insertBackup]
  | cons c rest ih =>
    unfold insertBackup
    by_cases h : c.1 ≤ b.1
    · rw [if_pos h]
      simp only [List.mem_cons]
    · rw [if_neg h]
      simp only [List.mem_cons, ih]
      tauto

lemma sortNewestFirst_mem {α : Type} (x : Nat × FileContent α)
    (l : List (Nat × FileContent α)) :
    x ∈ sortNewestFirst l ↔ x ∈ l := by
  induction l with
  | nil => simp [sortNewestFirst]
  | cons b rest ih =>
    unfold sortNewestFirst
    rw [insertBackup_mem]
    simp only [List.mem_cons, ih]

lemma insertBackup_pairwise {α : Type} (b : Nat × FileContent α)
    (l : List (Nat × FileContent α))
    (hl : l.Pairwise (fun a x => x.1 ≤ a.1)) :
    (insertBackup b l).Pairwise (fun a x => x.1 ≤ a.1) := by
  induction l with
  | nil => simp [insertBackup]
  | cons c rest ih =>
    rw [List.pairwise_cons] at hl
    unfold insertBackup
    by_cases h : c.1 ≤ b.1
    · rw [if_pos h]
      refine List.Pairwise.cons ?_ (List.Pairwise.cons hl.1 hl.2)
      intro x hx
      rcases List.mem_cons.mp hx with hx | hx
      · subst hx; exact h
      · exact le_trans (hl.1 x hx) h
    · rw [if_neg h]
      refine List.Pairwise.cons ?_ (ih hl.2)
      intro x hx
      rcases (insertBackup_mem b x rest).mp hx with hx | hx
      · subst hx; exact le_of_lt (not_le.mp h)
      · exact hl.1 x hx

lemma sortNewestFirst_pairwise {α : Type} (l : List (Nat × FileContent α)) :
    (sortNewestFirst l).Pairwise (fun a x => x.1 ≤ a.1) := by
  induction l with
  | nil => simp [sortNewestFirst]
  | cons b rest ih =>
    unfold sortNewestFirst
    exact insertBackup_pairwise b _ ih

lemma scanBackups_cons_some {α : Type} (e : α) (b : Nat × FileContent α)
    (l : List (Nat × FileContent α)) (d : α)
    (hb : readBackupContent e b.2 = some d) :
    scanBackups e (b :: l) = some d := by
  unfold scanBackups
  rw [hb]

lemma scanBackups_cons_none {α : Type} (e : α) (b : Nat × FileContent α)
    (l : List (Nat × FileContent α))
    (hb : readBackupContent e b.2 = none) :
    scanBackups e (b :: l) = scanBackups e l := by
  conv_lhs => unfold scanBackups
  rw [hb]

lemma scanBackups_eq_none_iff {α : Type} (e : α)
    (l : List (Nat × FileContent α)) :
    scanBackups e l = none ↔ ∀ p ∈ l, readBackupContent e p.2 = none := by
  induction l with
  | nil => simp [scanBackups]
  | cons b rest ih =>
    cases hb : readBackupContent e b.2 with
    | some d0 =>
      rw [scanBackups_cons_some e b rest d0 hb]
      simp [hb]
    | none =>
      rw [scanBackups_cons_none e b rest hb]
      simp [hb, ih]

/-- Over a newest-first list the scan returns the content of a snapshot
that deserializes and whose timestamp bounds every deserializable
snapshot: the first success of the enumeration. -/
lemma scanBackups_first_success {α : Type} (e : α) (d : α)
    (l : List (Nat × FileContent α)) :
    l.Pairwise (fun a x => x.1 ≤ a.1) → scanBackups e l = some d →
    ∃ p ∈ l, readBackupContent e p.2 = some d ∧
      ∀ q ∈ l, readBackupContent e q.2 ≠ none → q.1 ≤ p.1 := by
  induction l with
  | nil =>
    intro _ h
    exact absurd h (by simp [scanBackups])
  | cons b rest ih =>
    intro hs h
    rw [List.pairwise_cons] at hs
    cases hb : readBackupContent e b.2 with
    | some d0 =>
      rw [scanBackups_cons_some e b rest d0 hb] at h
      obtain rfl : d0 = d := Option.some.inj h
      refine ⟨b, List.mem_cons_self b rest, hb, ?_⟩
      intro q hq hqne
      rcases List.mem_cons.mp hq with hq | hq
      · subst hq; exact le_refl _
      · exact hs.1 q hq
    | none =>
      rw [scanBackups_cons_none e b rest hb] at h
      obtain ⟨p, hp, hpd, hmax⟩ := ih hs.2 h
      refine ⟨p, List.mem_cons_of_mem b hp, hpd, ?_⟩
      intro q hq hqne
      rcases List.mem_cons.mp hq with hq | hq
      · subst hq; exact absurd hb hqne
      · exact hmax q hq hqne

lemma readJsonFile_corrupt {α : Type} (e : α) (now : Nat) (fs : KindFS α)
    (uid : Nat) (hc : fs.current uid = some .corrupt) :
    readJsonFile e now fs uid =
      match scanBackups e (sortNewestFirst fs.backups) with
      | some d => (writeJsonFile now fs uid d, .ok (some d))
      | none => (fs, .error .corruption) := by
  unfold readJsonFile restoreFromBackup
  rw [hc]
  cases scanBackups e (sortNewestFirst fs.backups) <;> rfl

/-- C6 amended: when entity `uid`'s current file of a kind fails to
deserialize, the read enumerates the SHARED snapshot pool of that kind
(every entity's snapshots, since they all share the `{kind}_{timestamp}`
naming) newest first; if some snapshot of the pool deserializes, the read
returns the content of a deserializable pool snapshot whose timestamp
bounds every deserializable one (the first success of the newest-first
enumeration) and rewrites it as `uid`'s current version; if no snapshot of
the pool deserializes, the read raises `DataCorruptionError` and the files
are untouched. -/
theorem readJsonFile_corruption_recovery {α : Type} (emptyDoc : α)
    (now : Nat) (fs : KindFS α) (uid : Nat)
    (hc : fs.current uid = some .corrupt) :
    ((∃ p ∈ fs.backups, readBackupContent emptyDoc p.2 ≠ none) →
      ∃ d p, (readJsonFile emptyDoc now fs uid).2 = .ok (some d) ∧
        (readJsonFile emptyDoc now fs uid).1.current uid =
          some (.valid d) ∧
        p ∈ fs.backups ∧ readBackupContent emptyDoc p.2 = some d ∧
        ∀ q ∈ fs.backups, readBackupContent emptyDoc q.2 ≠ none →
          q.1 ≤ p.1) ∧
    ((∀ p ∈ fs.backups, readBackupContent emptyDoc p.2 = none) →
      (readJsonFile emptyDoc now fs uid).2 = .error .corruption ∧
      (readJsonFile emptyDoc now fs uid).1 = fs) := by
  constructor
  · rintro ⟨p0, hp0, hp0ne⟩
    cases hd : scanBackups emptyDoc (sortNewestFirst fs.backups) with
    | none =>
      rw [scanBackups_eq_none_iff] at hd
      exact absurd (hd p0 ((sortNewestFirst_mem p0 fs.backups).mpr hp0))
        hp0ne
    | some d =>
      obtain ⟨p, hp, hpd, hmax⟩ := scanBackups_first_success emptyDoc d
        (sortNewestFirst fs.backups) (sortNewestFirst_pairwise _) hd
      refine ⟨d, p, ?_, ?_, (sortNewestFirst_mem p _).mp hp, hpd, ?_⟩
      · rw [readJsonFile_corrupt emptyDoc now fs uid hc, hd]
      · rw [readJsonFile_corrupt emptyDoc now fs uid hc, hd]
        show (writeJsonFile now fs uid d).current uid = some (.valid d)
        unfold writeJsonFile
        dsimp only
        rw [if_pos rfl]
      · intro q hq hqne
        exact hmax q ((sortNewestFirst_mem q _).mpr hq) hqne
  · intro hall
    have hd : scanBackups emptyDoc (sortNewestFirst fs.backups) = none := by
      rw [scanBackups_eq_none_iff]
      intro p hp
      exact hall p ((sortNewestFirst_mem p _).mp hp)
    rw [readJsonFile_corrupt emptyDoc now fs uid hc, hd]
    exact ⟨rfl, rfl⟩

/-- C6 counterexample: user 1's economy file held record 10 and user 2's
held record 20; rewriting user 2's record to 21 copied user 2's old
content 20 into the shared snapshot pool, which is then the pool's only
snapshot.  When user 1's current file is corrupted, recovering it scans
that shared pool and returns user 2's record 20, installing it as user 1's
current version: the recovery enumerated and restored another entity's
snapshot, not one of "that key's snapshots" (user 1 never stored 20). -/
theorem restore_other_entitys_record_cex :
    fsTwoUsers.current 1 = some (.valid 10) ∧
    fsAfterUser2Write.backups = [(5, .valid 20)] ∧
    fsAfterUser2Write.current 1 = some (.valid 10) ∧
    fsUser1Corrupt.current 1 = some .corrupt ∧
    (readJsonFile 0 9 fsUser1Corrupt 1).2 = .ok (some 20) ∧
    (readJsonFile 0 9 fsUser1Corrupt 1).1.current 1 = some (.valid 20) ∧
    (20 : Nat) ≠ 10 := by
  refine ⟨rfl, rfl, rfl, rfl, rfl, rfl, by decide⟩

/-- Witness for C6 amended: the kind where user 1's file is corrupt and the
shared pool's newest valid snapshot holds 7 recovers; the kind whose only
pool snapshot is also corrupt raises `DataCorruptionError` with the files
untouched. -/
theorem readJsonFile_corruption_recovery_witness :
    fsRecoverable.current 1 = some .corrupt ∧
    (∃ p ∈ fsRecoverable.backups, readBackupContent 0 p.2 ≠ none) ∧
    (∃ d p, (readJsonFile 0 100 fsRecoverable 1).2 = .ok (some d) ∧
      (readJsonFile 0 100 fsRecoverable 1).1.current 1 = some (.valid d) ∧
      p ∈ fsRecoverable.backups ∧ readBackupContent 0 p.2 = some d ∧
      ∀ q ∈ fsRecoverable.backups, readBackupContent 0 q.2 ≠ none →
        q.1 ≤ p.1) ∧
    fsUnrecoverable.current 1 = some .corrupt ∧
    (∀ p ∈ fsUnrecoverable.backups, readBackupContent 0 p.2 = none) ∧
    (readJsonFile 0 100 fsUnrecoverable 1).2 = .error .corruption ∧
    (readJsonFile 0 100 fsUnrecoverable 1).1 = fsUnrecoverable := by
  have h1 := (readJsonFile_corruption_recovery 0 100 fsRecoverable 1 rfl).1
    (by decide)
  have h2 := (readJsonFile_corruption_recovery 0 100 fsUnrecoverable 1
    rfl).2 (by decide)
  exact ⟨rfl, by decide, h1, rfl, by decide, h2.1, h2.2⟩


/-! The multiplier calculation: its store mutation and its value. -/

lemma saveEffects_nil {s : LedgerState} (uid : Nat) (e : ActiveEffects)
    (h : s.saveFail = []) :
    saveEffects s uid e =
      ({ s with effects := fun u => if u = uid then some e else s.effects u },
        true) := by
  unfold saveEffects
  rw [popSave_nil h]
  rfl

lemma saveInventory_nil {s : LedgerState} (uid : Nat) (inv : UserInventory)
    (h : s.saveFail = []) :
    saveInventory s uid inv =
      ({ s with
          inventory := fun u => if u = uid then some inv else s.inventory u },
        true) := by
  unfold saveInventory
  rw [popSave_nil h]
  rfl

lemma saveInventory_state_nil (s : LedgerState)
    (f : Nat → Option ActiveEffects) (uid : Nat) (inv : UserInventory)
    (h : s.saveFail = []) :
    saveInventory { s with effects := f } uid inv =
      ({ s with
          effects := f,
          inventory := fun u => if u = uid then some inv else s.inventory u },
        true) :=
  saveInventory_nil (s := { s with effects := f }) uid inv h

/-- C8 amended: `calculate_total_multipliers` is not a pure calculation --
it rewrites the stored active-effects record to the cleaned version
(expired temporary effects dropped, `last_update` stamped) and rewrites the
stored inventory record to the version with its cached total value
recomputed, while the economy and prestige stores are untouched.  Its
multiplier value is the item-effect fold over the rewritten inventory
applied after the effect fold over the cleaned record, seeded with the
stored prestige multiplier on the money and exp keys; and
`calculate_prestige_bonus` scales the base amount by the stored prestige
multiplier truncated to an integer. -/
theorem calculateTotalMultipliers_spec
    (catalog : String → Option (List (String × ℚ))) (now : Tstamp)
    (s : LedgerState) (uid : Nat) (eff : ActiveEffects)
    (inv : UserInventory) (p : PrestigeData) (base : Int) :
    (s.effects uid = some eff → s.inventory uid = some inv →
      s.prestige uid = some p → s.saveFail = [] →
      (calculateTotalMultipliers catalog now s uid).1.effects uid =
        some (cleanExpiredEffects now eff) ∧
      (calculateTotalMultipliers catalog now s uid).1.inventory uid =
        some (updateInventoryValue inv) ∧
      (calculateTotalMultipliers catalog now s uid).1.econ = s.econ ∧
      (calculateTotalMultipliers catalog now s uid).1.prestige =
        s.prestige ∧
      (calculateTotalMultipliers catalog now s uid).2 =
        (updateInventoryValue inv).items.foldl (fun m it =>
          if !it.2.consumable then
            match catalog it.1 with
            | some effs => applyItemEffects m effs
            | none => m
          else m)
          (((cleanExpiredEffects now eff).temporary_effects ++
            (cleanExpiredEffects now eff).permanent_effects).foldl
            (fun m e => applyEffectValue m e.effect_type e.value)
            { defaultMultipliers with
              money_multiplier :=
                defaultMultipliers.money_multiplier * p.prestige_multiplier,
              exp_multiplier :=
                defaultMultipliers.exp_multiplier *
                  p.prestige_multiplier })) ∧
    (s.prestige uid = some p →
      calculatePrestigeBonus s uid base =
        pyInt ((base : ℚ) * p.prestige_multiplier)) := by
  constructor
  · intro heff hinv hp hs
    unfold calculateTotalMultipliers getUserActiveEffects getUserInventory
    rw [heff, hp]
    dsimp only
    rw [saveEffects_nil uid (cleanExpiredEffects now eff) hs]
    dsimp only
    rw [hinv]
    dsimp only
    rw [saveInventory_state_nil s _ uid (updateInventoryValue inv) hs]
    dsimp only
    refine ⟨?_, ?_, rfl, rfl, rfl⟩
    · rw [if_pos rfl]
    · rw [if_pos rfl]
  · intro hpp
    unfold calculatePrestigeBonus
    rw [hpp]

/-- Witness for C8 amended: user 1 of `stFullRecords` (one expired
temporary effect, one permanent multiplier, one non-consumable inventory
item and a default prestige record) has both stored records rewritten, the
economy store untouched, and the prestige bonus scaled by the stored
multiplier. -/
theorem calculateTotalMultipliers_spec_witness :
    stFullRecords.effects 1 = some effRecord ∧
    stFullRecords.inventory 1 = some invRecord ∧
    stFullRecords.prestige 1 = some prestigeDefault ∧
    stFullRecords.saveFail = [] ∧
    (calculateTotalMultipliers (fun _ => none) tsLater stFullRecords
        1).1.effects 1 = some (cleanExpiredEffects tsLater effRecord) ∧
    (calculateTotalMultipliers (fun _ => none) tsLater stFullRecords
        1).1.inventory 1 = some (updateInventoryValue invRecord) ∧
    (calculateTotalMultipliers (fun _ => none) tsLater stFullRecords
        1).1.econ = stFullRecords.econ ∧
    calculatePrestigeBonus stFullRecords 1 100 =
      pyInt ((100 : ℚ) * prestigeDefault.prestige_multiplier) := by
  have h1 := (calculateTotalMultipliers_spec (fun _ => none) tsLater
    stFullRecords 1 effRecord invRecord prestigeDefault 100).1
    rfl rfl rfl rfl
  have h2 := (calculateTotalMultipliers_spec (fun _ => none) tsLater
    stFullRecords 1 effRecord invRecord prestigeDefault 100).2 rfl
  exact ⟨rfl, rfl, rfl, rfl, h1.1, h1.2.1, h1.2.2.1, h2⟩


end FunniGuy
